import Mathlib

/-!
Shallow embedding of the reddot-watch/feedfetcher repository (Go), covering
the `dateparser` package, the `validation` package, the URL handling from
`net/url` that `validation` and the orchestrator rely on, and the
`extractItems` / `validateAndConvertItem` batch pipeline.

Modelling conventions:
* Go `time.Time` is modelled as an absolute instant (seconds since the Unix
  epoch, `Int`) plus a location, exactly Go's representation up to the
  nanosecond component, which is dropped: every duration and timestamp in
  this repository is a whole number of seconds.
* The process-wide local zone (`time.Local`) is modelled as UTC with zone
  abbreviation "UTC": the repository runs with an unset `TZ`, and Go then
  resolves `time.Local` to UTC.  The `Loc.local` constructor is kept
  distinct from `Loc.utc` because `ParseDateWithDefaultTZ` compares
  locations by identity (`t.Location() == time.Local`).
* Calendar arithmetic (civil date ↔ day number) implements the proleptic
  Gregorian calendar that Go's `time` package implements; `Int` division
  `/` is floor division for the positive constant divisors used here.
* Percent-escaping in `net/url` is not modelled (no escape sequences occur
  in any input the development evaluates), nor is the URL userinfo
  component.
-/

namespace Feedfetcher

/-- March-based year of a civil date: January and February count into the
previous year, as in the standard civil-from-days / days-from-civil
algorithms implementing the Gregorian calendar. -/
def marchYear (y m : Int) : Int := if m ≤ 2 then y - 1 else y

/-- March-based month index (March = 0, ..., February = 11). -/
def marchMonth (m : Int) : Int := if 2 < m then m - 3 else m + 9

/-- Day offset of civil day `d` of month `m` within its March-based year. -/
def dayOfMarchYear (m d : Int) : Int := (153 * marchMonth m + 2) / 5 + d - 1

/-- Days from the start of a 400-year era to the start of March-based year
`yoe` (for `0 ≤ yoe ≤ 399`). -/
def yearDays (yoe : Int) : Int := 365 * yoe + yoe / 4 - yoe / 100

/-- Day number since 1970-01-01 of the civil date `(y, m, d)`.  Linear in
`d`, hence it also models Go's normalization of out-of-range day components
in `time.Date`. -/
def daysFromCivil (y m d : Int) : Int :=
  marchYear y m / 400 * 146097 + yearDays (marchYear y m % 400)
    + dayOfMarchYear m d - 719468

/-- Civil date `(y, m, d)` of a day number since 1970-01-01. -/
def civilFromDays (z : Int) : Int × Int × Int :=
  let doe := (z + 719468) % 146097
  let era := (z + 719468) / 146097
  let yoe := (doe - doe / 1460 + doe / 36524 - doe / 146096) / 365
  let doy := doe - yearDays yoe
  let mp := (5 * doy + 2) / 153
  let d := doy - (153 * mp + 2) / 5 + 1
  let m := if mp < 10 then mp + 3 else mp - 9
  (era * 400 + yoe + (if m ≤ 2 then 1 else 0), m, d)

/-- Location of a Go `time.Time`: UTC, the process-local zone, or a fixed
zone with a name and an offset in seconds east of UTC (`time.FixedZone`). -/
inductive Loc where
  | utc : Loc
  | local : Loc
  | fixed (name : String) (offset : Int) : Loc
  deriving DecidableEq, Repr

/-- Offset in seconds east of UTC of a location.  The process's local zone
is modelled as UTC (offset 0). -/
def Loc.offsetSec : Loc → Int
  | .utc => 0
  | .local => 0
  | .fixed _ o => o

/-- Model of Go `time.Time`: an absolute instant in seconds since the Unix
epoch together with a location used to render civil fields. -/
structure GoTime where
  unix : Int
  loc : Loc
  deriving DecidableEq, Repr

/-- Civil date of a `GoTime` in its own location (Go `Time.Date`). -/
def GoTime.dateFields (t : GoTime) : Int × Int × Int :=
  civilFromDays ((t.unix + t.loc.offsetSec) / 86400)

def GoTime.year (t : GoTime) : Int := t.dateFields.1

def GoTime.month (t : GoTime) : Int := t.dateFields.2.1

def GoTime.day (t : GoTime) : Int := t.dateFields.2.2

/-- Seconds elapsed in the civil day of a `GoTime` in its own location. -/
def GoTime.secondsOfDay (t : GoTime) : Int := (t.unix + t.loc.offsetSec) % 86400

def GoTime.hour (t : GoTime) : Int := t.secondsOfDay / 3600

def GoTime.minute (t : GoTime) : Int := t.secondsOfDay % 3600 / 60

def GoTime.second (t : GoTime) : Int := t.secondsOfDay % 60

/-- Weekday of a `GoTime` in its own location; Sunday = 0 as in Go's
`time.Weekday` (1970-01-01 was a Thursday = 4). -/
def GoTime.weekday (t : GoTime) : Int :=
  ((t.unix + t.loc.offsetSec) / 86400 + 4) % 7

/-- Model of Go `time.Date`: builds the instant for the given (possibly
out-of-range, to be normalized) civil fields in the given location.  The
month is normalized by floor division as in Go's `norm`; all other
components enter the instant linearly, exactly as Go's conversion does. -/
def goDate (y m d h mi s : Int) (loc : Loc) : GoTime :=
  { unix := daysFromCivil (y + (m - 1) / 12) ((m - 1) % 12 + 1) d * 86400
      + h * 3600 + mi * 60 + s - loc.offsetSec
    loc := loc }

/-- Model of Go `Time.UTC`: same instant, location set to UTC. -/
def GoTime.toUTC (t : GoTime) : GoTime := { unix := t.unix, loc := .utc }

/-- Model of Go `Time.AddDate`: read the civil fields in the time's
location, offset them, and rebuild with `time.Date`. -/
def GoTime.addDate (t : GoTime) (years months days : Int) : GoTime :=
  goDate (t.year + years) (t.month + months) (t.day + days)
    t.hour t.minute t.second t.loc

/-- Model of Go `Time.Sub`, in seconds (both times are instants). -/
def GoTime.subSec (t u : GoTime) : Int := t.unix - u.unix

/-- Weekday (Sunday = 0) of the civil date `(y, m, d)`. -/
def weekdayOf (y m d : Int) : Int := (daysFromCivil y m d + 4) % 7

/-- ASCII uppercase test, the `[A-Z]` character class of Go's regexp. -/
def isUpperCh (c : Char) : Bool := 'A' ≤ c && c ≤ 'Z'

/-- ASCII lowercase test, the `[a-z]` character class of Go's regexp. -/
def isLowerCh (c : Char) : Bool := 'a' ≤ c && c ≤ 'z'

/-- ASCII digit test. -/
def isDigitCh (c : Char) : Bool := '0' ≤ c && c ≤ '9'

/-- ASCII lowering of one character (`strings.ToLower` on the ASCII inputs
this development feeds it). -/
def asciiLowerChar (c : Char) : Char :=
  if 'A' ≤ c && c ≤ 'Z' then Char.ofNat (c.toNat + 32) else c

/-- ASCII lowering of a string. -/
def asciiLower (s : String) : String := ⟨s.data.map asciiLowerChar⟩

/-- Substring containment on character lists (`strings.Contains`). -/
def containsSub (needle : List Char) : List Char → Bool
  | [] => needle.isEmpty
  | c :: cs => needle.isPrefixOf (c :: cs) || containsSub needle cs

/-- Model of Go `strings.Contains s sub`. -/
def goContains (s sub : String) : Bool := containsSub sub.data s.data

/-- Replace the first occurrence of `pat` (`strings.Replace` with count 1). -/
def replaceFirstL (pat rep : List Char) : List Char → List Char
  | [] => []
  | c :: cs =>
    if pat.isPrefixOf (c :: cs) then rep ++ (c :: cs).drop pat.length
    else c :: replaceFirstL pat rep cs

/-- Model of Go `strings.Replace s pat rep 1`. -/
def goReplaceOnce (s pat rep : String) : String :=
  ⟨replaceFirstL pat.data rep.data s.data⟩

/-- Longest prefix of ASCII lowercase letters, and the remainder (used for
the `[a-z]+` greedy run in the EETE_R regular expression). -/
def takeLowerRun : List Char → List Char × List Char
  | [] => ([], [])
  | c :: cs =>
    if isLowerCh c then
      let p := takeLowerRun cs
      (c :: p.1, p.2)
    else ([], c :: cs)

/-- Matcher for the anchored regular expression
`^([A-Z][a-z]{2})(AM|PM)(EETE_R|EESTE_R)([A-Z][a-z]+)C822$` (`eetePattern`
in the dateparser package), returning the four capture groups.  The two
region alternatives differ at their third character, and the month's
`[a-z]+` run cannot overlap the uppercase `C` of the `C822` suffix, so the
match is deterministic. -/
def eeteAfterRegion (wd ap pt : String) :
    List Char → Option (String × String × String × String)
  | m1 :: rest =>
    if isUpperCh m1 then
      let p := takeLowerRun rest
      if !p.1.isEmpty && p.2 = ['C', '8', '2', '2'] then
        some (wd, ap, pt, ⟨m1 :: p.1⟩)
      else none
    else none
  | [] => none

def eeteMatch (s : String) : Option (String × String × String × String) :=
  match s.data with
  | w1 :: w2 :: w3 :: rest =>
    if isUpperCh w1 && isLowerCh w2 && isLowerCh w3 then
      match rest with
      | a :: 'M' :: r2 =>
        if a = 'A' || a = 'P' then
          if ['E', 'E', 'T', 'E', '_', 'R'].isPrefixOf r2 then
            eeteAfterRegion ⟨[w1, w2, w3]⟩ ⟨[a, 'M']⟩ "EETE_R" (r2.drop 6)
          else if ['E', 'E', 'S', 'T', 'E', '_', 'R'].isPrefixOf r2 then
            eeteAfterRegion ⟨[w1, w2, w3]⟩ ⟨[a, 'M']⟩ "EESTE_R" (r2.drop 7)
          else none
        else none
      | _ => none
    else none
  | _ => none

/-- The `monthMap` of the dateparser package (month names to numbers). -/
def monthMap : List (String × Int) :=
  [("january", 1), ("february", 2), ("march", 3), ("april", 4), ("may", 5),
   ("june", 6), ("july", 7), ("august", 8), ("september", 9), ("october", 10),
   ("november", 11), ("december", 12)]

/-- The `weekdayMap` of the dateparser package (Sunday = 0, as Go). -/
def weekdayMap : List (String × Int) :=
  [("sun", 0), ("mon", 1), ("tue", 2), ("wed", 3), ("thu", 4), ("fri", 5), ("sat", 6)]

/-- Association-list lookup (Go map indexing with an ok-flag). -/
def lookupAssoc (tab : List (String × Int)) (k : String) : Option Int :=
  match tab with
  | [] => none
  | (n, v) :: rest => if n = k then some v else lookupAssoc rest k

/-- The dateparser's `parseWeekday`: weekday abbreviation to Go weekday
number, `-1` when unknown. -/
def parseWeekday (day : String) : Int :=
  (lookupAssoc weekdayMap (asciiLower day)).getD (-1)

/-- The dateparser's `parseEETEPattern`.  `nowYear` and `nowMonth` model
`time.Now().Year()` and `time.Now().Month()`. -/
def parseEETEPattern (nowYear nowMonth : Int) (dateStr : String) :
    Except String GoTime :=
  match eeteMatch dateStr with
  | none => .error ("invalid EETE_R format: " ++ dateStr)
  | some (weekday, ampm, patternType, month) =>
    let monthNum := (lookupAssoc monthMap (asciiLower month)).getD nowMonth
    let t := goDate nowYear monthNum 1 0 0 0 .utc
    let weekdayNum := parseWeekday weekday
    let t2 :=
      if 0 ≤ weekdayNum then
        t.addDate 0 0 ((weekdayNum - t.weekday + 7) % 7)
      else t
    let hour : Int := if ampm = "PM" then 15 else 9
    let minute : Int := if patternType = "EESTE_R" then 30 else 0
    .ok (goDate t2.year t2.month t2.day hour minute 0 .utc)

/-- Layout tokens of Go's `time` reference layout, restricted to the token
kinds reachable from this repository's `dateLayouts` table (the remaining
kinds are carried so the tokenizer below follows Go's `nextStdChunk`
case-for-case). -/
inductive Std where
  | wday : Std
  | wdayLong : Std
  | mon : Std
  | monLong : Std
  | numMonth : Std
  | zeroMonth : Std
  | day : Std
  | zeroDay : Std
  | underDay : Std
  | yearDay3 : Std
  | underYearDay : Std
  | hour : Std
  | hour12 : Std
  | zeroHour12 : Std
  | minute : Std
  | zeroMinute : Std
  | second : Std
  | zeroSecond : Std
  | yearLong : Std
  | year2 : Std
  | pmUp : Std
  | pmLow : Std
  | tzNamed : Std
  | numSecTZ : Std
  | numColonSecTZ : Std
  | numTZ : Std
  | numColonTZ : Std
  | numShortTZ : Std
  | isoSecTZ : Std
  | isoColonSecTZ : Std
  | isoTZ : Std
  | isoColonTZ : Std
  | isoShortTZ : Std
  | fracSec (digit : Char) (n : Nat) : Std
  deriving DecidableEq, Repr

/-- A layout decomposed into literal runs and standard tokens. -/
inductive Chunk where
  | lit (cs : List Char) : Chunk
  | std (s : Std) : Chunk
  deriving DecidableEq, Repr

/-- Length of the leading run of the character `c`. -/
def countRun (c : Char) : List Char → Nat
  | d :: rest => if d = c then countRun c rest + 1 else 0
  | [] => 0

/-- Standard token starting at the head of the layout, with the remainder,
following Go's `nextStdChunk` character dispatch.  `none` means the head
character is a literal.  (For `_2006`, Go yields a literal underscore and
then the long-year token, which is what the `none` here also produces.) -/
def stdAt : List Char → Option (Std × List Char)
  | 'J' :: rest =>
    if ['a', 'n', 'u', 'a', 'r', 'y'].isPrefixOf rest then some (.monLong, rest.drop 6)
    else if ['a', 'n'].isPrefixOf rest then some (.mon, rest.drop 2)
    else none
  | 'M' :: rest =>
    if ['o', 'n', 'd', 'a', 'y'].isPrefixOf rest then some (.wdayLong, rest.drop 5)
    else if ['o', 'n'].isPrefixOf rest then some (.wday, rest.drop 2)
    else if ['S', 'T'].isPrefixOf rest then some (.tzNamed, rest.drop 2)
    else none
  | '0' :: '0' :: '2' :: r => some (.yearDay3, r)
  | '0' :: '1' :: r => some (.zeroMonth, r)
  | '0' :: '2' :: r => some (.zeroDay, r)
  | '0' :: '3' :: r => some (.zeroHour12, r)
  | '0' :: '4' :: r => some (.zeroMinute, r)
  | '0' :: '5' :: r => some (.zeroSecond, r)
  | '0' :: '6' :: r => some (.year2, r)
  | '1' :: '5' :: r => some (.hour, r)
  | '1' :: r => some (.numMonth, r)
  | '2' :: '0' :: '0' :: '6' :: r => some (.yearLong, r)
  | '2' :: r => some (.day, r)
  | '_' :: '_' :: '2' :: r => some (.underYearDay, r)
  | '_' :: '2' :: r =>
    if ['0', '0', '6'].isPrefixOf r then none else some (.underDay, r)
  | '3' :: r => some (.hour12, r)
  | '4' :: r => some (.minute, r)
  | '5' :: r => some (.second, r)
  | 'P' :: 'M' :: r => some (.pmUp, r)
  | 'p' :: 'm' :: r => some (.pmLow, r)
  | '-' :: r =>
    if ['0', '7', '0', '0', '0', '0'].isPrefixOf r then some (.numSecTZ, r.drop 6)
    else if ['0', '7', ':', '0', '0', ':', '0', '0'].isPrefixOf r then
      some (.numColonSecTZ, r.drop 8)
    else if ['0', '7', '0', '0'].isPrefixOf r then some (.numTZ, r.drop 4)
    else if ['0', '7', ':', '0', '0'].isPrefixOf r then some (.numColonTZ, r.drop 5)
    else if ['0', '7'].isPrefixOf r then some (.numShortTZ, r.drop 2)
    else none
  | 'Z' :: r =>
    if ['0', '7', '0', '0', '0', '0'].isPrefixOf r then some (.isoSecTZ, r.drop 6)
    else if ['0', '7', ':', '0', '0', ':', '0', '0'].isPrefixOf r then
      some (.isoColonSecTZ, r.drop 8)
    else if ['0', '7', '0', '0'].isPrefixOf r then some (.isoTZ, r.drop 4)
    else if ['0', '7', ':', '0', '0'].isPrefixOf r then some (.isoColonTZ, r.drop 5)
    else if ['0', '7'].isPrefixOf r then some (.isoShortTZ, r.drop 2)
    else none
  | c :: r =>
    if c = '.' || c = ',' then
      match r with
      | d :: _ =>
        if d = '0' || d = '9' then
          let n := countRun d r
          match r.drop n with
          | e :: _ => if isDigitCh e then none else some (.fracSec d n, r.drop n)
          | [] => some (.fracSec d n, [])
        else none
      | [] => none
    else none
  | [] => none

/-- Tokenize a layout, fuelled by its length (each step consumes at least
one character). -/
def chunksOfAux : Nat → List Char → List Chunk
  | 0, _ => []
  | _, [] => []
  | fuel + 1, c :: rest =>
    match stdAt (c :: rest) with
    | some (s, r) => .std s :: chunksOfAux fuel r
    | none => .lit [c] :: chunksOfAux fuel rest

/-- Merge adjacent literal chunks, so that a literal run between two
standard tokens is matched by one `skip` call as in Go; fuelled by the
list length (each step shortens the list). -/
def coalesceAux : Nat → List Chunk → List Chunk
  | 0, l => l
  | fuel + 1, .lit a :: .lit b :: rest => coalesceAux fuel (.lit (a ++ b) :: rest)
  | fuel + 1, c :: rest => c :: coalesceAux fuel rest
  | _ + 1, [] => []

def coalesce (l : List Chunk) : List Chunk := coalesceAux l.length l

def chunksOf (layout : List Char) : List Chunk :=
  coalesce (chunksOfAux layout.length layout)

/-- Parser state accumulated over one layout attempt, mirroring the local
variables of Go's `Parse` (`-1` marks an unset month/day/yday; `z` is the
explicitly recognized location; `zoneOffset`/`zoneName` are the numeric
offset and zone abbreviation when present). -/
structure PState where
  year : Int
  month : Int
  day : Int
  yday : Int
  hour : Int
  min : Int
  sec : Int
  pmSet : Bool
  amSet : Bool
  z : Option Loc
  zoneOffset : Option Int
  zoneName : Option String
  deriving DecidableEq, Repr

def PState.init : PState :=
  ⟨0, -1, -1, -1, 0, 0, 0, false, false, none, none, none⟩

/-- Remove leading spaces (Go's `cutspace`). -/
def cutspace : List Char → List Char
  | ' ' :: r => cutspace r
  | l => l

/-- Match a literal layout prefix against the value, treating a run of
spaces in the layout as matching any run of spaces in the value (Go's
`skip`).  Fuelled by the prefix length. -/
def skipLitAux : Nat → List Char → List Char → Option (List Char)
  | _, [], value => some value
  | 0, _ :: _, _ => none
  | fuel + 1, ' ' :: p, value =>
    if value.head? = some ' ' || value.isEmpty then
      skipLitAux fuel (cutspace p) (cutspace value)
    else none
  | fuel + 1, c :: p, value =>
    match value with
    | v :: vs => if v = c then skipLitAux fuel p vs else none
    | [] => none

def skipLit (p value : List Char) : Option (List Char) :=
  skipLitAux p.length p value

def digitVal (c : Char) : Int := (c.toNat : Int) - 48

/-- Go's `getnum`: one or two digits, exactly two when `fixed`. -/
def getnum (fixed : Bool) : List Char → Option (Int × List Char)
  | [] => none
  | [c] => if isDigitCh c && !fixed then some (digitVal c, []) else none
  | c1 :: c2 :: rest =>
    if !isDigitCh c1 then none
    else if isDigitCh c2 then some (digitVal c1 * 10 + digitVal c2, rest)
    else if fixed then none
    else some (digitVal c1, c2 :: rest)

/-- Go's `getnum3`: one to three digits, exactly three when `fixed`. -/
def getnum3 (fixed : Bool) (v : List Char) : Option (Int × List Char) :=
  match v with
  | a :: b :: c :: rest =>
    if isDigitCh a then
      if isDigitCh b then
        if isDigitCh c then some (digitVal a * 100 + digitVal b * 10 + digitVal c, rest)
        else if fixed then none else some (digitVal a * 10 + digitVal b, c :: rest)
      else if fixed then none else some (digitVal a, b :: c :: rest)
    else none
  | [a, b] =>
    if fixed then none
    else if isDigitCh a then
      if isDigitCh b then some (digitVal a * 10 + digitVal b, [])
      else some (digitVal a, [b])
    else none
  | [a] => if isDigitCh a && !fixed then some (digitVal a, []) else none
  | [] => none

/-- Accumulate leading digits (Go's `leadingInt`, overflow ignored). -/
def leadingIntAux (acc : Int) : List Char → Int × List Char
  | [] => (acc, [])
  | c :: rest =>
    if isDigitCh c then leadingIntAux (acc * 10 + digitVal c) rest
    else (acc, c :: rest)

/-- Go's `atoi` from the `time` package: optional sign, then digits making
up the whole remaining string. -/
def goAtoi (s : List Char) : Option Int :=
  let p := match s with
    | '-' :: r => (true, r)
    | '+' :: r => (false, r)
    | _ => (false, s)
  let q := leadingIntAux 0 p.2
  if q.2.isEmpty then some (if p.1 then -q.1 else q.1) else none

/-- Go's `parseSignedOffset`: length of a leading `±h` / `±hh` group with
hour at most 23, or 0 when absent. -/
def parseSignedOffset (value : List Char) : Nat :=
  match value with
  | c :: rest =>
    if c = '-' || c = '+' then
      let p := leadingIntAux 0 rest
      if p.2.length = rest.length then 0
      else if 23 < p.1 then 0
      else value.length - p.2.length
    else 0
  | [] => 0

/-- Count of leading ASCII uppercase letters, capped at 6. -/
def countUpperAux : Nat → List Char → Nat
  | n, c :: rest =>
    if 6 ≤ n then n
    else if isUpperCh c then countUpperAux (n + 1) rest
    else n
  | n, [] => n

/-- Go's `parseTimeZone`: length of a leading zone abbreviation. -/
def parseTimeZone (value : List Char) : Option Nat :=
  if value.length < 3 then none
  else if ['C', 'h', 'S', 'T'].isPrefixOf value then some 4
  else if ['M', 'e', 'S', 'T'].isPrefixOf value then some 4
  else if ['G', 'M', 'T'].isPrefixOf value then
    some (3 + parseSignedOffset (value.drop 3))
  else if value.head? = some '+' || value.head? = some '-' then
    let n := parseSignedOffset value
    if 0 < n then some n else none
  else
    match countUpperAux 0 value with
    | 3 => some 3
    | 4 =>
      if (value.drop 3).head? = some 'T' then some 4
      else if ['W', 'I', 'T', 'A'].isPrefixOf value then some 4
      else none
    | 5 => if (value.drop 4).head? = some 'T' then some 5 else none
    | _ => none

def longDayNames : List (List Char) :=
  ["Sunday", "Monday", "Tuesday", "Wednesday", "Thursday", "Friday",
   "Saturday"].map String.data

def shortDayNames : List (List Char) :=
  ["Sun", "Mon", "Tue", "Wed", "Thu", "Fri", "Sat"].map String.data

def shortMonthNames : List (List Char) :=
  ["Jan", "Feb", "Mar", "Apr", "May", "Jun", "Jul", "Aug", "Sep", "Oct",
   "Nov", "Dec"].map String.data

def longMonthNames : List (List Char) :=
  ["January", "February", "March", "April", "May", "June", "July", "August",
   "September", "October", "November", "December"].map String.data

/-- Go's `match`: ASCII case-insensitive equality of equal-length words. -/
def matchCI : List Char → List Char → Bool
  | [], [] => true
  | c1 :: r1, c2 :: r2 =>
    if c1 = c2 then matchCI r1 r2
    else
      let a := c1.toNat ||| 32
      let b := c2.toNat ||| 32
      if a = b ∧ 97 ≤ a ∧ a ≤ 122 then matchCI r1 r2 else false
  | _, _ => false

/-- Go's `lookup`: first table entry that is a case-insensitive prefix of
the value, with its index and the remaining value. -/
def lookupTab : List (List Char) → List Char → Option (Nat × List Char)
  | [], _ => none
  | name :: rest, v =>
    if name.length ≤ v.length && matchCI (v.take name.length) name then
      some (0, v.drop name.length)
    else (lookupTab rest v).map fun p => (p.1 + 1, p.2)

/-- Days before the start of each month in a non-leap year (Go's
`daysBefore`, index 0 through 12). -/
def daysBefore : List Int :=
  [0, 31, 59, 90, 120, 151, 181, 212, 243, 273, 304, 334, 365]

/-- Go's `isLeap`. -/
def isLeap (y : Int) : Bool := y % 4 = 0 && (y % 100 ≠ 0 || y % 400 = 0)

/-- Go's `daysIn`: number of days of month `m` (1-12) of year `y`. -/
def daysIn (m y : Int) : Int :=
  if m = 2 && isLeap y then 29
  else daysBefore.getD m.toNat 0 - daysBefore.getD (m.toNat - 1) 0

/-- Consume an implicit fractional second `.ddd…` after a seconds token
when the layout itself has no fractional-second token (Go's special case
inside `stdSecond`); the nanoseconds themselves are not tracked. -/
def dropImplicitFrac (nextFrac : Bool) (v : List Char) : List Char :=
  match v with
  | c :: d :: _ =>
    if (c = '.' || c = ',') && isDigitCh d && !nextFrac then
      v.drop (1 + countRun' (v.drop 1))
    else v
  | _ => v
where countRun' : List Char → Nat
  | e :: rest => if isDigitCh e then countRun' rest + 1 else 0
  | [] => 0

/-- Value-side action of one standard token (the `switch std` of Go's
`Parse`): consumes input and updates the parser state, or fails. -/
def parseStd (s : Std) (nextFrac : Bool) (v : List Char) (st : PState) :
    Option (List Char × PState) :=
  match s with
  | .wday => (lookupTab shortDayNames v).map fun p => (p.2, st)
  | .wdayLong => (lookupTab longDayNames v).map fun p => (p.2, st)
  | .mon => (lookupTab shortMonthNames v).map fun p =>
      (p.2, { st with month := (p.1 : Int) + 1 })
  | .monLong => (lookupTab longMonthNames v).map fun p =>
      (p.2, { st with month := (p.1 : Int) + 1 })
  | .numMonth => (getnum false v).bind fun p =>
      if p.1 ≤ 0 ∨ 12 < p.1 then none else some (p.2, { st with month := p.1 })
  | .zeroMonth => (getnum true v).bind fun p =>
      if p.1 ≤ 0 ∨ 12 < p.1 then none else some (p.2, { st with month := p.1 })
  | .day => (getnum false v).map fun p => (p.2, { st with day := p.1 })
  | .zeroDay => (getnum true v).map fun p => (p.2, { st with day := p.1 })
  | .underDay =>
    let v2 := if v.head? = some ' ' then v.tail else v
    (getnum false v2).map fun p => (p.2, { st with day := p.1 })
  | .yearDay3 => (getnum3 true v).map fun p => (p.2, { st with yday := p.1 })
  | .underYearDay =>
    let v2 := if v.head? = some ' ' then v.tail else v
    let v3 := if v2.head? = some ' ' then v2.tail else v2
    (getnum3 false v3).map fun p => (p.2, { st with yday := p.1 })
  | .hour => (getnum false v).bind fun p =>
      if p.1 < 0 ∨ 24 < p.1 then none else some (p.2, { st with hour := p.1 })
  | .hour12 => (getnum false v).bind fun p =>
      if p.1 < 0 ∨ 12 < p.1 then none else some (p.2, { st with hour := p.1 })
  | .zeroHour12 => (getnum true v).bind fun p =>
      if p.1 < 0 ∨ 12 < p.1 then none else some (p.2, { st with hour := p.1 })
  | .minute => (getnum false v).bind fun p =>
      if p.1 < 0 ∨ 60 ≤ p.1 then none else some (p.2, { st with min := p.1 })
  | .zeroMinute => (getnum true v).bind fun p =>
      if p.1 < 0 ∨ 60 ≤ p.1 then none else some (p.2, { st with min := p.1 })
  | .second => (getnum false v).bind fun p =>
      if p.1 < 0 ∨ 60 ≤ p.1 then none
      else some (dropImplicitFrac nextFrac p.2, { st with sec := p.1 })
  | .zeroSecond => (getnum true v).bind fun p =>
      if p.1 < 0 ∨ 60 ≤ p.1 then none
      else some (dropImplicitFrac nextFrac p.2, { st with sec := p.1 })
  | .yearLong =>
    match v with
    | a :: b :: c :: d :: rest =>
      if isDigitCh a then
        (goAtoi [a, b, c, d]).map fun y => (rest, { st with year := y })
      else none
    | _ => none
  | .year2 =>
    match v with
    | a :: b :: rest =>
      (goAtoi [a, b]).map fun y =>
        (rest, { st with year := if 69 ≤ y then y + 1900 else y + 2000 })
    | _ => none
  | .pmUp =>
    match v with
    | 'P' :: 'M' :: rest => some (rest, { st with pmSet := true })
    | 'A' :: 'M' :: rest => some (rest, { st with amSet := true })
    | _ => none
  | .pmLow =>
    match v with
    | 'p' :: 'm' :: rest => some (rest, { st with pmSet := true })
    | 'a' :: 'm' :: rest => some (rest, { st with amSet := true })
    | _ => none
  | .tzNamed =>
    if ['U', 'T', 'C'].isPrefixOf v then
      some (v.drop 3, { st with z := some .utc })
    else
      (parseTimeZone v).map fun n => (v.drop n, { st with zoneName := some ⟨v.take n⟩ })
  | .fracSec d n =>
    if d = '0' then
      if 1 + n ≤ v.length && (v.head?.map fun c => c = '.' || c = ',').getD false
          && (v.drop 1 |>.take n |>.all isDigitCh) then
        some (v.drop (1 + n), st)
      else none
    else
      match v with
      | c :: e :: _ =>
        if (c = '.' || c = ',') && isDigitCh e then
          let i := countRun' (v.drop 1)
          some (v.drop (1 + i), st)
        else some (v, st)
      | _ => some (v, st)
  | .numColonTZ => parseOffsetTZ v st false 6 true false
  | .isoColonTZ => parseOffsetTZ v st true 6 true false
  | .numShortTZ => parseOffsetTZ v st false 3 false false
  | .isoShortTZ => parseOffsetTZ v st true 3 false false
  | .numTZ => parseOffsetTZ v st false 5 false false
  | .isoTZ => parseOffsetTZ v st true 5 false false
  | .numSecTZ => parseOffsetTZ v st false 7 false true
  | .isoSecTZ => parseOffsetTZ v st true 7 false true
  | .numColonSecTZ => parseOffsetTZ v st false 9 true true
  | .isoColonSecTZ => parseOffsetTZ v st true 9 true true
where
  countRun' : List Char → Nat
    | e :: rest => if isDigitCh e then countRun' rest + 1 else 0
    | [] => 0
  parseOffsetTZ (v : List Char) (st : PState) (iso : Bool) (width : Nat)
      (colon : Bool) (withSec : Bool) : Option (List Char × PState) :=
    if iso && v.head? = some 'Z' then
      some (v.drop 1, { st with z := some .utc })
    else if v.length < width then none
    else
      let sign := v.head?
      let hh := v.drop 1 |>.take 2
      let mm := if width = 3 then ['0', '0']
        else if colon then v.drop 4 |>.take 2
        else v.drop 3 |>.take 2
      let ss := if !withSec then ['0', '0']
        else if colon then v.drop 7 |>.take 2
        else v.drop 5 |>.take 2
      let colonsOk :=
        if colon then
          ((v.drop 3).head? = some ':')
            && (!withSec || (v.drop 6).head? = some ':')
        else true
      if !colonsOk then none
      else
        (getnum true hh).bind fun ph =>
        (getnum true mm).bind fun pm =>
        (getnum true ss).bind fun ps =>
        let off := (ph.1 * 60 + pm.1) * 60 + ps.1
        match sign with
        | some '+' => some (v.drop width, { st with zoneOffset := some off })
        | some '-' => some (v.drop width, { st with zoneOffset := some (-off) })
        | _ => none

/-- Whether the next standard token in the remaining layout is a
fractional-second token (Go consults `nextStdChunk` for this). -/
def nextStdIsFrac : List Chunk → Bool
  | .lit _ :: rest => nextStdIsFrac rest
  | .std (.fracSec _ _) :: _ => true
  | _ => false

/-- The chunk-processing loop of Go's `Parse`: literals via `skip`,
standard tokens via `parseStd`; trailing input is an error. -/
def runChunks : List Chunk → List Char → PState → Option PState
  | [], v, st => if v.isEmpty then some st else none
  | .lit cs :: rest, v, st =>
    match skipLit cs v with
    | some v2 => runChunks rest v2 st
    | none => none
  | .std s :: rest, v, st =>
    match parseStd s (nextStdIsFrac rest) v st with
    | some (v2, st2) => runChunks rest v2 st2
    | none => none

/-- Go's reconstruction of month and day from a day-of-year value. -/
def ydayToMonthDay (year yday : Int) : Option (Int × Int) :=
  let p : Int × Int × Int :=
    if isLeap year then
      if yday = 31 + 29 then (2, 29, yday)
      else if 31 + 29 < yday then (0, 0, yday - 1)
      else (0, 0, yday)
    else (0, 0, yday)
  let m0 := p.1
  let d0 := p.2.1
  let yd := p.2.2
  if yd < 1 ∨ 365 < yd then none
  else if m0 ≠ 0 then some (m0, d0)
  else
    let m1 := (yd - 1) / 31 + 1
    let m2 := if daysBefore.getD m1.toNat 0 < yd then m1 + 1 else m1
    some (m2, yd - daysBefore.getD (m2.toNat - 1) 0)

/-- End of Go's `Parse`: 12-hour adjustment, day-of-year reconciliation,
month/day defaulting, day-of-month validation, and zone resolution (with
the process-local zone modelled as UTC named "UTC"). -/
def finalize (st : PState) : Option GoTime :=
  let hour := if st.pmSet && st.hour < 12 then st.hour + 12
    else if st.amSet && st.hour = 12 then 0 else st.hour
  let step1 : Option (Int × Int) :=
    if 0 ≤ st.yday then
      match ydayToMonthDay st.year st.yday with
      | none => none
      | some (m, d) =>
        if 0 ≤ st.month ∧ st.month ≠ m then none
        else if 0 ≤ st.day ∧ st.day ≠ d then none
        else some (m, d)
    else some (st.month, st.day)
  match step1 with
  | none => none
  | some (m0, d0) =>
    let month := if m0 < 0 then 1 else m0
    let day := if d0 < 0 then 1 else d0
    if day < 1 ∨ daysIn month st.year < day then none
    else
      match st.z with
      | some zl => some (goDate st.year month day hour st.min st.sec zl)
      | none =>
        match st.zoneOffset with
        | some off =>
          let t := goDate st.year month day hour st.min st.sec .utc
          let t2 : GoTime := { t with unix := t.unix - off }
          if off = 0 ∧ (st.zoneName = none ∨ st.zoneName = some "UTC") then
            some { t2 with loc := .local }
          else some { t2 with loc := .fixed (st.zoneName.getD "") off }
        | none =>
          match st.zoneName with
          | some name =>
            let t := goDate st.year month day hour st.min st.sec .utc
            if name = "UTC" then some { t with loc := .local }
            else
              let off := if 3 < name.data.length ∧ ['G', 'M', 'T'].isPrefixOf name.data then
                  ((goAtoi (name.data.drop 3)).getD 0) * 3600
                else 0
              some { t with loc := .fixed name off }
          | none => some (goDate st.year month day hour st.min st.sec .utc)

/-- One attempt of `time.Parse layout value`, keeping the raw parser state
alongside the resulting time (the state records whether the layout carried
zone information, which the theorems below inspect). -/
def parseWithLayout (layout : String) (value : List Char) :
    Option (PState × GoTime) :=
  match runChunks (chunksOf layout.data) value PState.init with
  | none => none
  | some st => (finalize st).map fun t => (st, t)

/-- First successful layout wins, as in the loop of `ParseDate`. -/
def tryLayouts : List String → List Char → Option (PState × GoTime)
  | [], _ => none
  | l :: ls, v =>
    match parseWithLayout l v with
    | some r => some r
    | none => tryLayouts ls v

/-- The `dateLayouts` table of the dateparser package, verbatim and in
order (ordering is load-bearing: the first matching layout wins). -/
def dateLayouts : List String :=
  ["Dom, 02 Jan 2006 15:04:05 -0700 2006-01-02 15:04:05",
   "Sáb, 02 Jan 2006 15:04:05 -0700 2006-01-02 15:04:05",
   "Mon, 02 Jan 2006 15:04:05 MST/City",
   "Mon, 02 Jan 2006 15:04:05 TIME_ZONE",
   "Mon, 02 Jan 2006 15:04:05 MST",
   "Mon, 02 Jan 2006  MST",
   "Monday, January 2, 2006, 15:04 GMT -0700",
   "Monday, January 2, 2006, 15:04 GMT +0700",
   "Monday, January 2, 2006, 15:04 GMT -07:00",
   "Monday, January 2, 2006, 15:04 GMT +07:00",
   "Monday, January 2, 2006, 15:04 GMT-0700",
   "Monday, January 2, 2006, 15:04 GMT+0700",
   "Monday, January 2, 2006, 15:04 GMT-07:00",
   "Monday, January 2, 2006, 15:04 GMT+07:00",
   "Vie, 01/02/2006 - 15:04",
   "dom, 02 Jan 2006 15:04:05 -0700",
   "ven, 02 Jan 2006 15:04:05 MST",
   "Vie, 02 Jan 2006 15:04:05 -0700",
   "Jue, 02 Jan 06 15:04:05 -0700",
   "Mar, 02 Jan 2006 15:04:05 -0700",
   "Mar, 02 Ago 2006 15:04:05 -0700",
   "Domenica, 02 Marzo, 2006 - 15:04",
   "Domenica, 02 Gennaio, 2006 - 15:04",
   "Lunedì, 02 Gennaio, 2006 - 15:04",
   "Martedì, 02 Gennaio, 2006 - 15:04",
   "Mercoledì, 02 Gennaio, 2006 - 15:04",
   "Giovedì, 02 Gennaio, 2006 - 15:04",
   "Venerdì, 02 Gennaio, 2006 - 15:04",
   "Sabato, 02 Gennaio, 2006 - 15:04",
   "2006-01-02T15:04:05Z -0700",
   "02 Μαρ 2006 15:04:00 -0700",
   "02 Mars 2006",
   "02 مارس 2006",
   "Mon, 02 January 2006, 03:04:05 PM -0700",
   "Mon, 02 Jan 2006 03:04 PM MST",
   "Mon, 02 Jan 2006 03:04 AM MST",
   "02 January 2006 - 15:04",
   "02-01-2006 15:04",
   "15:04 02.01.2006",
   "02.01.2006 | 15:04",
   "Monday Jan 02 2006 15:04:05",
   "Monday Jan 2 2006 15:04:05",
   "January 02, 2006, 3:04 pm",
   "Jan 02, 2006, 3:04pm",
   "Jan 2, 2006, 3:04pm",
   "Jan 02, 2006, 3:04am",
   "Jan 2, 2006, 3:04am",
   "Monday 02 Jan 2006 15:04:05 -0700",
   "Mon,02 Jan 2006 15:04:05 -07",
   "Mon, 02 Jan 2006 15:04:05 z",
   "Mon, 2 Jan 2006 24:04:05 -0700",
   "Mon, 02 Jan 2006 24:04:05 -0700",
   "Mon, 02 Jan 2006 15:04:05 -0700",
   "Mon, 02 Jan 2006 03:04:05 PM",
   "Mon, 02 Jan 2006 03:04:05 AM",
   "Mon, 02 Jan 2006 15:04:05",
   "Vie, 02/01/2006 - 15:04",
   "02.01.2006",
   "Mon, 2 Jan 2006 3:04:05 PM",
   "Mon, 2 Jan 2006 3:04:05 AM",
   "Mon, 02 Jan 2006 3:04:05 PM",
   "Mon, 02 Jan 2006 3:04:05 AM",
   " Mon, 2 Jan 2006 15:04:05 MST ",
   "Mon, 02 Jan 2006 3:04:05 PM -0700",
   "Mon, Jan 2 2006 12:04:05 AM",
   "Mon, Jan 2 2006 03:04:05 PM",
   "2 Jan 2006 15:04 MST",
   "2 Jan 2006 15:04"]

/-- The string-rewriting preprocessing of `ParseDate` (named-region
substitution and GMT-offset spacing normalization). -/
def datePreprocess (dateStr : String) : String :=
  let s1 := if goContains dateStr "Europe/Dublin" then
      goReplaceOnce dateStr "Europe/Dublin" "GMT"
    else dateStr
  if goContains s1 "GMT +" || goContains s1 "GMT -" then
    goReplaceOnce (goReplaceOnce s1 "GMT +" "GMT+") "GMT -" "GMT-"
  else s1

/-- The dateparser's `ParseDate`.  The error message of the fall-through
case uses the preprocessed string, as the Go code reassigns `dateStr`
before the layout loop. -/
def ParseDate (nowYear nowMonth : Int) (dateStr : String) : Except String GoTime :=
  if goContains dateStr "EETE_R" || goContains dateStr "EESTE_R" then
    parseEETEPattern nowYear nowMonth dateStr
  else
    let s2 := datePreprocess dateStr
    match tryLayouts dateLayouts s2.data with
    | some r => .ok r.2
    | none => .error ("unable to parse date: " ++ s2)

/-- The dateparser's `ParseDateWithDefaultTZ`: convert to UTC only when the
parse landed in the process-local zone. -/
def ParseDateWithDefaultTZ (nowYear nowMonth : Int) (dateStr : String) :
    Except String GoTime :=
  match ParseDate nowYear nowMonth dateStr with
  | .error e => .error e
  | .ok t => if t.loc = .local then .ok t.toUTC else .ok t

/-- Model of Go `net/url.URL` (RawPath/RawFragment omitted together with
percent-escaping, which no input of this development uses). -/
structure GoURL where
  scheme : String
  opaquePart : String
  user : Option String
  host : String
  path : String
  omitHost : Bool
  forceQuery : Bool
  rawQuery : String
  fragment : String
  deriving DecidableEq, Repr

/-- Go `URL.IsAbs`: a URL is absolute when it has a scheme. -/
def GoURL.isAbs (u : GoURL) : Bool := u.scheme ≠ ""

/-- First occurrence split (Go `strings.Cut`): before, after, found. -/
def strCut (sep : Char) : List Char → List Char × List Char × Bool
  | [] => ([], [], false)
  | c :: rest =>
    if c = sep then ([], rest, true)
    else
      let p := strCut sep rest
      (c :: p.1, p.2.1, p.2.2)

/-- Index of the last occurrence of a character. -/
def lastIndexOf (c : Char) (l : List Char) : Option Nat :=
  match l with
  | [] => none
  | a :: rest =>
    match lastIndexOf c rest with
    | some i => some (i + 1)
    | none => if a = c then some 0 else none

/-- Split on every occurrence of a character (the segment sequence Go's
`strings.Cut` loop walks). -/
def splitOnChar (sep : Char) : List Char → List (List Char)
  | [] => [[]]
  | c :: rest =>
    if c = sep then [] :: splitOnChar sep rest
    else
      match splitOnChar sep rest with
      | s :: ss => (c :: s) :: ss
      | [] => [[c]]

/-- Control-byte test of `net/url` (`stringContainsCTLByte`). -/
def hasCTL (l : List Char) : Bool := l.any fun c => c.toNat < 0x20 || c.toNat = 0x7f

/-- Go `net/url`'s `getScheme`: splits a leading `scheme:`; `([], raw)`
when there is no scheme, `none` on a malformed leading colon. -/
def getScheme (raw : List Char) : Option (List Char × List Char) :=
  go [] raw
where
  go (acc : List Char) : List Char → Option (List Char × List Char)
    | [] => some ([], raw)
    | c :: rest =>
      if ('a' ≤ c && c ≤ 'z') || ('A' ≤ c && c ≤ 'Z') then go (c :: acc) rest
      else if isDigitCh c || c = '+' || c = '-' || c = '.' then
        if acc.isEmpty then some ([], raw) else go (c :: acc) rest
      else if c = ':' then
        if acc.isEmpty then none else some (acc.reverse, rest)
      else some ([], raw)

/-- Go `validOptionalPort`. -/
def validOptionalPort : List Char → Bool
  | [] => true
  | ':' :: digits => digits.all isDigitCh
  | _ => false

/-- Go `parseHost`, restricted: IPv6 brackets and percent-escapes are not
modelled (such hosts are rejected by the model and unused here). -/
def parseHost (host : List Char) : Option (List Char) :=
  if host.head? = some '[' then none
  else if host.contains '%' then none
  else
    match lastIndexOf ':' host with
    | some i => if validOptionalPort (host.drop i) then some host else none
    | none => some host

/-- Go `parseAuthority`: split userinfo at the last `@`, then the host. -/
def parseAuthority (auth : List Char) : Option (Option String × List Char) :=
  match lastIndexOf '@' auth with
  | none => (parseHost auth).map fun h => (none, h)
  | some i => (parseHost (auth.drop (i + 1))).map fun h => (some ⟨auth.take i⟩, h)

/-- Go `net/url.Parse` on the fragment-stripped part (`parse` with
`viaRequest = false`). -/
def urlParseCore (raw : List Char) (fragment : String) : Option GoURL :=
  if hasCTL raw then none
  else
    match getScheme raw with
    | none => none
    | some (schemeCs, rest0) =>
      let scheme := asciiLower ⟨schemeCs⟩
      let q := strCut '?' rest0
      let hasTrailingQ := rest0.getLast? = some '?'
        ∧ ¬(containsSub ['?'] rest0.dropLast = true)
      let rest := if hasTrailingQ then rest0.dropLast else q.1
      let rawQuery : String := if hasTrailingQ then "" else ⟨q.2.1⟩
      let forceQuery := hasTrailingQ
      if rest.head? ≠ some '/' ∧ scheme ≠ "" then
        if rest.contains '%' then none
        else some { scheme := scheme, opaquePart := ⟨rest⟩, user := none, host := "",
                    path := "", omitHost := false, forceQuery := forceQuery,
                    rawQuery := rawQuery, fragment := fragment }
      else if rest.head? ≠ some '/' ∧ ((strCut '/' rest).1.contains ':') then
        none
      else
        let hasAuth := (scheme ≠ "" ∨ ¬(['/', '/', '/'].isPrefixOf rest))
          ∧ ['/', '/'].isPrefixOf rest
        let afterAuth :=
          if hasAuth then
            let body := rest.drop 2
            let c := strCut '/' body
            if c.2.2 then (c.1, '/' :: c.2.1) else (body, ([] : List Char))
          else ([], rest)
        if hasAuth then
          match parseAuthority afterAuth.1 with
          | none => none
          | some (user, host) =>
            if afterAuth.2.contains '%' then none
            else some { scheme := scheme, opaquePart := "", user := user,
                        host := ⟨host⟩, path := ⟨afterAuth.2⟩, omitHost := false,
                        forceQuery := forceQuery, rawQuery := rawQuery,
                        fragment := fragment }
        else
          if rest.contains '%' then none
          else some { scheme := scheme, opaquePart := "", user := none, host := "",
                      path := ⟨rest⟩, omitHost := scheme ≠ "" ∧ rest.head? = some '/',
                      forceQuery := forceQuery, rawQuery := rawQuery,
                      fragment := fragment }

/-- Go `net/url.Parse`: strip the fragment, then parse. -/
def goURLParse (rawURL : String) : Option GoURL :=
  let c := strCut '#' rawURL.data
  if c.2.2 then urlParseCore c.1 ⟨c.2.1⟩ else urlParseCore rawURL.data ""

/-- Segment loop of Go's `resolvePath`: current output (starting at `"/"`)
and the no-separator-needed flag. -/
def resolveSegs : List (List Char) → List Char → Bool → List Char
  | [], dst, _ => dst
  | seg :: rest, dst, first =>
    if seg = ['.'] then resolveSegs rest dst false
    else if seg = ['.', '.'] then
      let str := dst.drop 1
      match lastIndexOf '/' str with
      | none => resolveSegs rest ['/'] true
      | some i => resolveSegs rest ('/' :: str.take i) first
    else
      let dst2 := if first then dst ++ seg else dst ++ '/' :: seg
      resolveSegs rest dst2 false

/-- Go `resolvePath` (RFC 3986 §5.2 merge and dot-segment removal). -/
def resolvePath (base ref : List Char) : List Char :=
  let full :=
    if ref = [] then base
    else if ref.head? ≠ some '/' then
      match lastIndexOf '/' base with
      | some i => base.take (i + 1) ++ ref
      | none => ref
    else ref
  if full = [] then []
  else
    let segs := splitOnChar '/' full
    let out := resolveSegs segs ['/'] true
    let lastSeg := (segs.getLast?).getD []
    let r0 := if lastSeg = ['.'] ∨ lastSeg = ['.', '.'] then out ++ ['/'] else out
    if (r0.drop 1).head? = some '/' then r0.drop 1 else r0

/-- Go `URL.ResolveReference`. -/
def GoURL.resolveReference (u ref : GoURL) : GoURL :=
  let url1 := if ref.scheme = "" then { ref with scheme := u.scheme } else ref
  if ref.scheme ≠ "" ∨ ref.host ≠ "" ∨ ref.user.isSome then
    { url1 with path := ⟨resolvePath ref.path.data []⟩ }
  else if ref.opaquePart ≠ "" then
    { url1 with user := none, host := "", path := "" }
  else
    let url2 :=
      if ref.path = "" ∧ ¬ref.forceQuery ∧ ref.rawQuery = "" then
        let u3 := { url1 with rawQuery := u.rawQuery }
        if ref.fragment = "" then { u3 with fragment := u.fragment } else u3
      else url1
    { url2 with host := u.host, user := u.user,
                path := ⟨resolvePath u.path.data ref.path.data⟩ }

/-- Go `URL.String` (escaping omitted with the rest of the escape model). -/
def GoURL.toString (u : GoURL) : String :=
  let schemePart := if u.scheme ≠ "" then u.scheme ++ ":" else ""
  let core :=
    if u.opaquePart ≠ "" then schemePart ++ u.opaquePart
    else
      let authPart :=
        if u.scheme ≠ "" ∨ u.host ≠ "" ∨ u.user.isSome then
          if u.omitHost ∧ u.host = "" ∧ u.user.isNone then ""
          else
            (if u.host ≠ "" ∨ u.path ≠ "" ∨ u.user.isSome then "//" else "")
              ++ (match u.user with | some ui => ui ++ "@" | none => "")
              ++ u.host
        else ""
      let pathPart :=
        if u.path ≠ "" ∧ u.path.data.head? ≠ some '/' ∧ u.host ≠ "" then "/" ++ u.path
        else u.path
      let pre := schemePart ++ authPart
      let dotSlash :=
        if pre = "" ∧ ((strCut '/' u.path.data).1.contains ':') then "./" else ""
      pre ++ dotSlash ++ pathPart
  let withQuery := if u.forceQuery ∨ u.rawQuery ≠ "" then core ++ "?" ++ u.rawQuery else core
  if u.fragment ≠ "" then withQuery ++ "#" ++ u.fragment else withQuery

/-- Host normalization of the rate limiter's `WaitForDomain`
(`strings.TrimPrefix(u.Host, "www.")`). -/
def hostAfterWWW (h : String) : String :=
  if ['w', 'w', 'w', '.'].isPrefixOf h.data then ⟨h.data.drop 4⟩ else h

/-- Acceptance of a feed URL by `WaitForDomain`: the URL parses and its
normalized host is non-empty. -/
def waitForDomainAccepts (urlStr : String) : Bool :=
  match goURLParse urlStr with
  | none => false
  | some u => hostAfterWWW u.host ≠ ""

/-- Acceptance of a feed URL by the orchestrator's entry points that run
before any item is processed: the rate limiter's host check and `newFeed`'s
parse. -/
def feedURLAccepted (s : String) : Bool :=
  waitForDomainAccepts s && (goURLParse s).isSome

/-- The sentinel errors of the validation package.  `invalidURL` and
`dateFormat` optionally wrap a cause (from `fmt.Errorf("%w: …")`);
`errors.Is` against the sentinel ignores the wrapped part. -/
inductive VErr where
  | invalidURL (wrapped : Option String) : VErr
  | emptyHeadline : VErr
  | headlineTooLong : VErr
  | missingDate : VErr
  | dateFormat (wrapped : Option String) : VErr
  | tooOld : VErr
  | futurePub : VErr
  deriving DecidableEq, Repr

/-- Go `errors.Is(err, ErrFeedPublicationDateFormat)`. -/
def VErr.isDateFormat : VErr → Bool
  | .dateFormat _ => true
  | _ => false

/-- Go `errors.Is(err, ErrInvalidURL)`. -/
def VErr.isInvalidURL : VErr → Bool
  | .invalidURL _ => true
  | _ => false

/-- Go `unicode.IsSpace` (the White_Space property). -/
def goIsSpace (c : Char) : Bool :=
  let n := c.toNat
  (0x09 ≤ n && n ≤ 0x0d) || n = 0x20 || n = 0x85 || n = 0xa0 || n = 0x1680
    || (0x2000 ≤ n && n ≤ 0x200a) || n = 0x2028 || n = 0x2029 || n = 0x202f
    || n = 0x205f || n = 0x3000

/-- Go `strings.TrimSpace`. -/
def goTrimSpace (s : String) : String :=
  ⟨(s.data.dropWhile goIsSpace).reverse.dropWhile goIsSpace |>.reverse⟩

/-- The `\s` class of Go's regexp package (ASCII Perl space class, as used
by the `\s+` of `spaceRegexp`). -/
def isRegexSpace (c : Char) : Bool :=
  c = '\t' || c = '\n' || c = '\x0c' || c = '\r' || c = ' '

/-- `spaceRegexp.ReplaceAllString s " "`: each maximal whitespace run
becomes one space; fuelled by the list length (each step consumes at least
one character). -/
def collapseSpacesAux : Nat → List Char → List Char
  | 0, _ => []
  | _ + 1, [] => []
  | fuel + 1, c :: cs =>
    if isRegexSpace c then ' ' :: collapseSpacesAux fuel (cs.dropWhile isRegexSpace)
    else c :: collapseSpacesAux fuel cs

def collapseSpaces (l : List Char) : List Char := collapseSpacesAux l.length l

/-- The validation package's `ValidateAndResolveURL`. -/
def ValidateAndResolveURL (feedURL : GoURL) (rawURL : String) : Except VErr String :=
  let raw := goTrimSpace rawURL
  if raw = "" then .error (.invalidURL none)
  else
    match goURLParse raw with
    | none => .error (.invalidURL (some "parse error"))
    | some parsed => .ok (feedURL.resolveReference parsed).toString

/-- The validation package's `ValidateAndSanitizeHeadline`.  The length
check counts Unicode code points (`len([]rune(headline))`). -/
def ValidateAndSanitizeHeadline (rawHeadline : String) (maxLength : Int) :
    Except VErr String :=
  if rawHeadline = "" then .error .emptyHeadline
  else
    let headline := goTrimSpace ⟨collapseSpaces rawHeadline.data⟩
    if maxLength < (headline.data.length : Int) then .error .headlineTooLong
    else .ok headline

/-- Model of `gofeed.Item`, restricted to the fields this repository
reads. -/
structure GofeedItem where
  title : String
  link : String
  description : String
  content : String
  published : String
  publishedParsed : Option GoTime
  deriving DecidableEq, Repr

/-- The validation package's `ValidatePublicationDate`.  `now` models
`time.Now()`, and `nowYear`/`nowMonth` the `time.Now()` calls inside the
dateparser; durations are in seconds.  (Go also caches a successful parse
back into `item.PublishedParsed`; in this single-pass model the cache has
no further reader, so it is not threaded through.) -/
def ValidatePublicationDate (nowYear nowMonth : Int) (now : GoTime)
    (item : GofeedItem) (maxAge futureTolerance : Int) : Except VErr GoTime :=
  let parsed : Except VErr GoTime :=
    match item.publishedParsed with
    | some t => .ok t
    | none =>
      if item.published = "" then .error .missingDate
      else
        match ParseDateWithDefaultTZ nowYear nowMonth item.published with
        | .ok t => .ok t
        | .error e => .error (.dateFormat (some e))
  match parsed with
  | .error e => .error e
  | .ok t =>
    let nowU := now.toUTC
    let pubDate := t.toUTC
    if futureTolerance < pubDate.subSec nowU then .error .futurePub
    else if maxAge < nowU.subSec pubDate then .error .tooOld
    else .ok pubDate

/-- The validation package's `ExtractContent`. -/
def ExtractContent (item : GofeedItem) : String :=
  let c := goTrimSpace item.description
  if c ≠ "" then c else goTrimSpace item.content

/-- Model of the `FeedItem` produced by `validateAndConvertItem` (the `ID`
field is never assigned on this path and is omitted). -/
structure FeedItem where
  feedURL : String
  url : String
  headline : String
  content : String
  publishedAt : GoTime
  deriving DecidableEq, Repr

/-- The orchestrator's configuration (fields the item pipeline reads;
durations in seconds). -/
structure Config where
  maxItems : Int
  maxHeadingLength : Int
  maxAge : Int
  futureDriftTolerance : Int
  deriving DecidableEq, Repr

/-- The orchestrator's `validateAndConvertItem`: URL, then publication
date, then headline, short-circuiting on the first failure. -/
def validateAndConvertItem (cfg : Config) (feedURL : GoURL)
    (nowYear nowMonth : Int) (now : GoTime) (item : GofeedItem) :
    Except VErr FeedItem :=
  match ValidateAndResolveURL feedURL item.link with
  | .error e => .error e
  | .ok itemURL =>
    match ValidatePublicationDate nowYear nowMonth now item
        cfg.maxAge cfg.futureDriftTolerance with
    | .error e => .error e
    | .ok publishedAt =>
      match ValidateAndSanitizeHeadline item.title cfg.maxHeadingLength with
      | .error e => .error e
      | .ok headline =>
        .ok { feedURL := feedURL.toString, url := itemURL, headline := headline,
              content := ExtractContent item, publishedAt := publishedAt }

/-- The item loop of `extractItems`: `nil` items are skipped; a failure
that `errors.Is`-matches `ErrFeedPublicationDateFormat` aborts the batch
with the bare sentinel; any other failure skips the item. -/
def extractLoop (cfg : Config) (feedURL : GoURL) (nowYear nowMonth : Int)
    (now : GoTime) : List (Option GofeedItem) → Except VErr (List FeedItem)
  | [] => .ok []
  | none :: rest => extractLoop cfg feedURL nowYear nowMonth now rest
  | some it :: rest =>
    match validateAndConvertItem cfg feedURL nowYear nowMonth now it with
    | .error e =>
      if e.isDateFormat then .error (.dateFormat none)
      else extractLoop cfg feedURL nowYear nowMonth now rest
    | .ok fi => (extractLoop cfg feedURL nowYear nowMonth now rest).map fun l => fi :: l

/-- Number of items `extractItems` processes: the batch is truncated to
`MaxItems` when that is positive and smaller than the batch. -/
def processedCount (cfg : Config) (n : Nat) : Nat :=
  if 0 < cfg.maxItems ∧ cfg.maxItems < (n : Int) then cfg.maxItems.toNat else n

/-- The orchestrator's `extractItems` over an already-downloaded feed. -/
def extractItems (cfg : Config) (feedURL : GoURL) (nowYear nowMonth : Int)
    (now : GoTime) (items : List (Option GofeedItem)) :
    Except VErr (List FeedItem) :=
  extractLoop cfg feedURL nowYear nowMonth now
    (items.take (processedCount cfg items.length))

/-- Whether an item-validation outcome is the systemic date-format failure
(`errors.Is(err, ErrFeedPublicationDateFormat)` on the error path). -/
def errIsDF : Except VErr FeedItem → Bool
  | .error e => e.isDateFormat
  | .ok _ => false

/-- The items a batch accepts, in order: every non-`nil` entry whose
validation succeeds. -/
def acceptedOf (cfg : Config) (feedURL : GoURL) (nowYear nowMonth : Int)
    (now : GoTime) : List (Option GofeedItem) → List FeedItem
  | [] => []
  | none :: rest => acceptedOf cfg feedURL nowYear nowMonth now rest
  | some it :: rest =>
    match validateAndConvertItem cfg feedURL nowYear nowMonth now it with
    | .error _ => acceptedOf cfg feedURL nowYear nowMonth now rest
    | .ok fi => fi :: acceptedOf cfg feedURL nowYear nowMonth now rest

set_option maxHeartbeats 4000000 in
/-- Recovering the year-of-era from a day-of-era is correct for days that
lie at offset at most 343 in their March-based year (covering every civil
day of month at most 7, the range the development needs). -/
theorem yoe_recover (yoe B : Int) (h1 : 0 ≤ yoe) (h2 : yoe ≤ 399)
    (h3 : yearDays yoe ≤ B) (h4 : B ≤ yearDays yoe + 343) :
    (B - B / 1460 + B / 36524 - B / 146096) / 365 = yoe := by
  unfold yearDays at h3 h4
  interval_cases yoe <;> omega

/-- Core roundtrip of the civil-date conversion, stated over the era /
year-of-era / March-month / day-offset decomposition. -/
theorem civil_core (era yoe mp d0 : Int) (h1 : 0 ≤ yoe) (h2 : yoe ≤ 399)
    (h3 : 0 ≤ mp) (h4 : mp ≤ 11) (h5 : 0 ≤ d0) (h6 : d0 ≤ 6) :
    civilFromDays (era * 146097 + yearDays yoe + (153 * mp + 2) / 5 + d0 - 719468)
      = (era * 400 + yoe + (if mp < 10 then 0 else 1),
         if mp < 10 then mp + 3 else mp - 9, d0 + 1) := by
  have hyd1 : 0 ≤ yearDays yoe := by unfold yearDays; omega
  have hyd2 : yearDays yoe ≤ 145731 := by unfold yearDays; omega
  have e1 : era * 146097 + yearDays yoe + (153 * mp + 2) / 5 + d0 - 719468 + 719468
      = (yearDays yoe + (153 * mp + 2) / 5 + d0) + 146097 * era := by ring
  have e2 : (era * 146097 + yearDays yoe + (153 * mp + 2) / 5 + d0 - 719468 + 719468) % 146097
      = yearDays yoe + (153 * mp + 2) / 5 + d0 := by omega
  have e3 : (era * 146097 + yearDays yoe + (153 * mp + 2) / 5 + d0 - 719468 + 719468) / 146097
      = era := by omega
  have hrec := yoe_recover yoe (yearDays yoe + (153 * mp + 2) / 5 + d0) h1 h2
    (by omega) (by omega)
  simp only [civilFromDays]
  rw [e2, e3, hrec]
  have hdoy : yearDays yoe + (153 * mp + 2) / 5 + d0 - yearDays yoe
      = (153 * mp + 2) / 5 + d0 := by ring
  rw [hdoy]
  have hmp : (5 * ((153 * mp + 2) / 5 + d0) + 2) / 153 = mp := by omega
  rw [hmp]
  simp only [Prod.mk.injEq]
  split_ifs <;> refine ⟨by omega, trivial, by omega⟩

/-- Roundtrip: converting a civil date to a day number and back is the
identity, for valid months and days at most 7 (the only days this
development reconstructs fields for). -/
theorem civilFromDays_daysFromCivil (y m d : Int) (hm1 : 1 ≤ m) (hm2 : m ≤ 12)
    (hd1 : 1 ≤ d) (hd2 : d ≤ 7) :
    civilFromDays (daysFromCivil y m d) = (y, m, d) := by
  have hmp1 : 0 ≤ marchMonth m := by unfold marchMonth; split <;> omega
  have hmp2 : marchMonth m ≤ 11 := by unfold marchMonth; split <;> omega
  have h0 : daysFromCivil y m d
      = marchYear y m / 400 * 146097 + yearDays (marchYear y m % 400)
        + (153 * marchMonth m + 2) / 5 + (d - 1) - 719468 := by
    unfold daysFromCivil dayOfMarchYear; ring
  have hcore := civil_core (marchYear y m / 400) (marchYear y m % 400) (marchMonth m)
    (d - 1) (by omega) (by omega) hmp1 hmp2 (by omega) (by omega)
  rw [h0, hcore]
  simp only [Prod.mk.injEq]
  unfold marchYear marchMonth at *
  split_ifs at * <;> refine ⟨by omega, by omega, by omega⟩

/-- C7: headline sanitation.  `"  Test   headline  "` with maximum 50
collapses and trims to exactly `"Test headline"`; the empty input is
`EmptyHeadline`; and every non-empty input whose sanitized form exceeds the
maximum in code points is `HeadlineTooLong` (the empty input is governed by
the `EmptyHeadline` case, which runs first). -/
theorem headline_sanitation :
    ValidateAndSanitizeHeadline "  Test   headline  " 50 = .ok "Test headline"
    ∧ ValidateAndSanitizeHeadline "" 50 = .error .emptyHeadline
    ∧ ∀ (s : String) (maxLength : Int), s ≠ "" →
        maxLength < ((goTrimSpace ⟨collapseSpaces s.data⟩).data.length : Int) →
        ValidateAndSanitizeHeadline s maxLength = .error .headlineTooLong := by
  refine ⟨rfl, rfl, fun s maxLength hne hlen => ?_⟩
  simp only [ValidateAndSanitizeHeadline]
  rw [if_neg hne, if_pos hlen]

/-- Closed witness for the quantified part of `headline_sanitation`. -/
theorem headline_sanitation_witness :
    ValidateAndSanitizeHeadline "abcd" 3 = .error .headlineTooLong :=
  headline_sanitation.2.2 "abcd" 3 (by decide) (by decide)

/-- Characters of the collapsed string are spaces when all input
characters satisfy the Unicode space predicate. -/
theorem collapseSpacesAux_all_space (fuel : Nat) :
    ∀ l : List Char, (∀ c ∈ l, goIsSpace c = true) →
      ∀ c ∈ collapseSpacesAux fuel l, goIsSpace c = true := by
  induction fuel with
  | zero => intro l _ c hc; simp [collapseSpacesAux] at hc
  | succ n ih =>
    intro l h x hx
    rcases l with _ | ⟨c, cs⟩
    · simp [collapseSpacesAux] at hx
    · simp only [collapseSpacesAux] at hx
      by_cases hsp : isRegexSpace c
      · rw [if_pos hsp] at hx
        rcases List.mem_cons.1 hx with hx | hx
        · subst hx; decide
        · exact ih _
            (fun a ha => h a (List.mem_cons_of_mem _
              ((List.dropWhile_sublist _).subset ha))) x hx
      · rw [if_neg hsp] at hx
        rcases List.mem_cons.1 hx with hx | hx
        · subst hx; exact h _ (List.mem_cons_self _ _)
        · exact ih _ (fun a ha => h a (List.mem_cons_of_mem _ ha)) x hx

/-- Trimming an all-whitespace character list yields the empty string. -/
theorem goTrimSpace_all_space (l : List Char) (h : ∀ c ∈ l, goIsSpace c = true) :
    goTrimSpace ⟨l⟩ = "" := by
  show (⟨((l.dropWhile goIsSpace).reverse.dropWhile goIsSpace).reverse⟩ : String) = ""
  have h1 : l.dropWhile goIsSpace = [] :=
    List.dropWhile_eq_nil_iff.2 fun x hx => by simp [h x hx]
  rw [h1]
  rfl

/-- C9: a non-empty all-whitespace headline is accepted as the empty
string whenever the configured maximum is non-negative — the
`EmptyHeadline` check inspects only the raw input, before collapsing and
trimming, so an accepted item can carry an empty headline. -/
theorem whitespace_only_headline_accepted (s : String) (maxLength : Int)
    (hne : s ≠ "") (hws : ∀ c ∈ s.data, goIsSpace c = true) (hml : 0 ≤ maxLength) :
    ValidateAndSanitizeHeadline s maxLength = .ok "" := by
  have hall : ∀ c ∈ collapseSpaces s.data, goIsSpace c = true :=
    collapseSpacesAux_all_space s.data.length s.data hws
  have htrim : goTrimSpace ⟨collapseSpaces s.data⟩ = "" :=
    goTrimSpace_all_space (collapseSpaces s.data) hall
  simp only [ValidateAndSanitizeHeadline]
  rw [if_neg hne, htrim]
  have h0 : ((("" : String).data.length : Nat) : Int) = 0 := rfl
  rw [if_neg (by omega)]

/-- Closed witness for `whitespace_only_headline_accepted`. -/
theorem whitespace_only_headline_accepted_witness :
    ValidateAndSanitizeHeadline "   " 0 = .ok "" :=
  whitespace_only_headline_accepted "   " 0 (by decide) (by decide) (by decide)

/-- C8: for an entry carrying a resolved publication instant, the
freshness window errs with `FuturePublication` exactly when the instant is
strictly more than the drift tolerance ahead of now, with `TooOld` exactly
when it is strictly more than the maximum age behind now (instants exactly
at either boundary are accepted), and on success returns the same instant
expressed in UTC, whatever the source location was. -/
theorem publication_date_window (nowYear nowMonth : Int) (now : GoTime)
    (item : GofeedItem) (t0 : GoTime) (maxAge futureTol : Int)
    (hpp : item.publishedParsed = some t0)
    (hma : 0 ≤ maxAge) (hft : 0 ≤ futureTol) :
    (ValidatePublicationDate nowYear nowMonth now item maxAge futureTol
        = .error .futurePub ↔ futureTol < t0.unix - now.unix)
    ∧ (ValidatePublicationDate nowYear nowMonth now item maxAge futureTol
        = .error .tooOld ↔ maxAge < now.unix - t0.unix)
    ∧ (t0.unix - now.unix ≤ futureTol → now.unix - t0.unix ≤ maxAge →
        ValidatePublicationDate nowYear nowMonth now item maxAge futureTol
          = .ok t0.toUTC)
    ∧ (∀ u, ValidatePublicationDate nowYear nowMonth now item maxAge futureTol
        = .ok u → u.loc = .utc ∧ u.unix = t0.unix) := by
  have base : ValidatePublicationDate nowYear nowMonth now item maxAge futureTol
      = (if futureTol < t0.unix - now.unix then .error .futurePub
         else if maxAge < now.unix - t0.unix then .error .tooOld
         else .ok t0.toUTC) := by
    simp only [ValidatePublicationDate, hpp, GoTime.subSec, GoTime.toUTC]
  rw [base]
  refine ⟨?_, ?_, ?_, ?_⟩
  · split_ifs with h1 h2 <;> simp_all
  · split_ifs with h1 h2 <;> simp_all <;> omega
  · intro hh1 hh2
    rw [if_neg (by omega), if_neg (by omega)]
  · intro u hu
    split_ifs at hu
    cases hu
    exact ⟨rfl, rfl⟩

/-- Closed witness for `publication_date_window` (an instant exactly at
the future boundary is accepted, one second beyond is rejected). -/
theorem publication_date_window_witness :
    ValidatePublicationDate 2025 3 { unix := 1742700000, loc := .utc }
      { title := "t", link := "l", description := "", content := "",
        published := "", publishedParsed := some { unix := 1742703600, loc := .utc } }
      86400 3600 = .ok { unix := 1742703600, loc := .utc }
    ∧ ValidatePublicationDate 2025 3 { unix := 1742700000, loc := .utc }
      { title := "t", link := "l", description := "", content := "",
        published := "", publishedParsed := some { unix := 1742703601, loc := .utc } }
      86400 3600 = .error .futurePub := by
  constructor
  · exact (publication_date_window 2025 3 { unix := 1742700000, loc := .utc }
      { title := "t", link := "l", description := "", content := "",
        published := "", publishedParsed := some { unix := 1742703600, loc := .utc } }
      { unix := 1742703600, loc := .utc } 86400 3600 rfl (by decide)
      (by decide)).2.2.1 (by decide) (by decide)
  · exact ((publication_date_window 2025 3 { unix := 1742700000, loc := .utc }
      { title := "t", link := "l", description := "", content := "",
        published := "", publishedParsed := some { unix := 1742703601, loc := .utc } }
      { unix := 1742703601, loc := .utc } 86400 3600 rfl (by decide)
      (by decide)).1).2 (by decide)

/-- C10: when an entry's link fails URL validation, the entry's
publication date is never consulted: `validateAndConvertItem` returns the
URL error itself — which is never the systemic date-format error — and at
batch level such an entry is skipped, not escalated to a batch abort. -/
theorem url_failure_entry_scoped (cfg : Config) (feedURL : GoURL)
    (nowYear nowMonth : Int) (now : GoTime) (item : GofeedItem) (e : VErr)
    (h : ValidateAndResolveURL feedURL item.link = .error e) :
    validateAndConvertItem cfg feedURL nowYear nowMonth now item = .error e
    ∧ e.isDateFormat = false
    ∧ extractItems cfg feedURL nowYear nowMonth now [some item] = .ok [] := by
  have hshape : e.isDateFormat = false := by
    simp only [ValidateAndResolveURL] at h
    split_ifs at h with h1
    · cases h; rfl
    · rcases hp : goURLParse (goTrimSpace item.link) with _ | u <;> rw [hp] at h
      · cases h; rfl
      · cases h
  have hv : validateAndConvertItem cfg feedURL nowYear nowMonth now item = .error e := by
    simp only [validateAndConvertItem]
    rw [h]
  refine ⟨hv, hshape, ?_⟩
  have hcnt : processedCount cfg 1 = 1 := by
    unfold processedCount
    split_ifs with hc
    · omega
    · rfl
  unfold extractItems
  simp only [List.length_cons, List.length_nil, hcnt, List.take_succ_cons,
    List.take_zero]
  unfold extractLoop
  rw [hv]
  simp only [hshape]
  rfl

/-- Closed witness for `url_failure_entry_scoped`: an entry whose link is
blank and whose date string is unparsable is dropped without aborting. -/
theorem url_failure_entry_scoped_witness :
    validateAndConvertItem
      { maxItems := 1000, maxHeadingLength := 250, maxAge := 86400,
        futureDriftTolerance := 86400 }
      { scheme := "https", opaquePart := "", user := none, host := "example.com",
        path := "/feed", omitHost := false, forceQuery := false, rawQuery := "",
        fragment := "" }
      2025 3 { unix := 1742700000, loc := .utc }
      { title := "x", link := "   ", description := "", content := "",
        published := "garbage date", publishedParsed := none }
      = .error (.invalidURL none)
    ∧ extractItems
      { maxItems := 1000, maxHeadingLength := 250, maxAge := 86400,
        futureDriftTolerance := 86400 }
      { scheme := "https", opaquePart := "", user := none, host := "example.com",
        path := "/feed", omitHost := false, forceQuery := false, rawQuery := "",
        fragment := "" }
      2025 3 { unix := 1742700000, loc := .utc }
      [some { title := "x", link := "   ", description := "", content := "",
              published := "garbage date", publishedParsed := none }]
      = .ok [] := by
  have h := url_failure_entry_scoped
    { maxItems := 1000, maxHeadingLength := 250, maxAge := 86400,
      futureDriftTolerance := 86400 }
    { scheme := "https", opaquePart := "", user := none, host := "example.com",
      path := "/feed", omitHost := false, forceQuery := false, rawQuery := "",
      fragment := "" }
    2025 3 { unix := 1742700000, loc := .utc }
    { title := "x", link := "   ", description := "", content := "",
      published := "garbage date", publishedParsed := none }
    (.invalidURL none) rfl
  exact ⟨h.1, h.2.2⟩

/-- A date-format failure anywhere in the list aborts the loop with the
bare sentinel error. -/
theorem extractLoop_dateFormat (cfg : Config) (feedURL : GoURL)
    (nowYear nowMonth : Int) (now : GoTime) :
    ∀ (l : List (Option GofeedItem)) (i : Nat) (it : GofeedItem),
      l[i]? = some (some it) →
      errIsDF (validateAndConvertItem cfg feedURL nowYear nowMonth now it) = true →
      extractLoop cfg feedURL nowYear nowMonth now l = .error (.dateFormat none) := by
  intro l
  induction l with
  | nil => intro i it h _; simp at h
  | cons oit rest ih =>
    intro i it hget hdf
    cases i with
    | zero =>
      simp only [List.getElem?_cons_zero, Option.some.injEq] at hget
      subst hget
      rcases hv : validateAndConvertItem cfg feedURL nowYear nowMonth now it
        with e | fi
      · have he : e.isDateFormat = true := by
          rw [hv] at hdf; exact hdf
        simp only [extractLoop, hv, he, if_true]
      · rw [hv] at hdf
        simp [errIsDF] at hdf
    | succ n =>
      simp only [List.getElem?_cons_succ] at hget
      rcases oit with _ | it0
      · simp only [extractLoop]
        exact ih n it hget hdf
      · rcases hv : validateAndConvertItem cfg feedURL nowYear nowMonth now it0
          with e | fi
        · simp only [extractLoop, hv]
          by_cases he : e.isDateFormat = true
          · rw [if_pos he]
          · rw [if_neg he]
            exact ih n it hget hdf
        · simp only [extractLoop, hv]
          rw [ih n it hget hdf]
          rfl

/-- C1: a date-format failure on any processed entry is systemic —
`extractItems` returns the `InvalidDateFormat` sentinel and no items at
all; entries after the failing one, however valid, never appear, and no
partial list accompanies the error. -/
theorem extractItems_dateFormat_aborts (cfg : Config) (feedURL : GoURL)
    (nowYear nowMonth : Int) (now : GoTime) (items : List (Option GofeedItem))
    (i : Nat) (it : GofeedItem)
    (hi : i < processedCount cfg items.length)
    (hget : items[i]? = some (some it))
    (hdf : errIsDF (validateAndConvertItem cfg feedURL nowYear nowMonth now it) = true) :
    extractItems cfg feedURL nowYear nowMonth now items
      = .error (.dateFormat none) := by
  unfold extractItems
  refine extractLoop_dateFormat cfg feedURL nowYear nowMonth now _ i it ?_ hdf
  rw [List.getElem?_take, if_pos hi, hget]

/-- Closed witness for `extractItems_dateFormat_aborts`: the second entry
has an unparsable date, the third is perfectly valid, and the batch yields
zero items with the sentinel error. -/
theorem extractItems_dateFormat_aborts_witness :
    extractItems
      { maxItems := 1000, maxHeadingLength := 250, maxAge := 86400,
        futureDriftTolerance := 86400 }
      { scheme := "https", opaquePart := "", user := none, host := "example.com",
        path := "/feed", omitHost := false, forceQuery := false, rawQuery := "",
        fragment := "" }
      2025 3 { unix := 1742700000, loc := .utc }
      [some { title := "First item", link := "https://example.com/a",
              description := "d", content := "",
              published := "", publishedParsed := some { unix := 1742690000, loc := .utc } },
       some { title := "Second item", link := "https://example.com/b",
              description := "d", content := "",
              published := "garbage date", publishedParsed := none },
       some { title := "Third item", link := "https://example.com/c",
              description := "d", content := "",
              published := "", publishedParsed := some { unix := 1742650000, loc := .utc } }]
      = .error (.dateFormat none) :=
  extractItems_dateFormat_aborts
    { maxItems := 1000, maxHeadingLength := 250, maxAge := 86400,
      futureDriftTolerance := 86400 }
    { scheme := "https", opaquePart := "", user := none, host := "example.com",
      path := "/feed", omitHost := false, forceQuery := false, rawQuery := "",
      fragment := "" }
    2025 3 { unix := 1742700000, loc := .utc } _ 1
    { title := "Second item", link := "https://example.com/b",
      description := "d", content := "",
      published := "garbage date", publishedParsed := none }
    (by decide) rfl (by decide)

/-- Without any date-format failure, the loop never aborts: it returns
exactly the accepted items, in order. -/
theorem extractLoop_no_dateFormat (cfg : Config) (feedURL : GoURL)
    (nowYear nowMonth : Int) (now : GoTime) :
    ∀ l : List (Option GofeedItem),
      (∀ it : GofeedItem, some it ∈ l →
        errIsDF (validateAndConvertItem cfg feedURL nowYear nowMonth now it) = false) →
      extractLoop cfg feedURL nowYear nowMonth now l
        = .ok (acceptedOf cfg feedURL nowYear nowMonth now l) := by
  intro l
  induction l with
  | nil => intro _; rfl
  | cons oit rest ih =>
    intro h
    rcases oit with _ | it0
    · simp only [extractLoop, acceptedOf]
      exact ih fun it hit => h it (List.mem_cons_of_mem _ hit)
    · have hrest := ih fun it hit => h it (List.mem_cons_of_mem _ hit)
      have h0 : errIsDF (validateAndConvertItem cfg feedURL nowYear nowMonth now it0)
          = false := h it0 (List.mem_cons_self _ _)
      rcases hv : validateAndConvertItem cfg feedURL nowYear nowMonth now it0
        with e | fi
      · have he : e.isDateFormat = false := by rw [hv] at h0; exact h0
        simp only [extractLoop, acceptedOf, hv, he]
        rw [if_neg (by simp), hrest]
      · simp only [extractLoop, acceptedOf, hv]
        rw [hrest]
        rfl

/-- C5: entry-scoped failures are swallowed — every entry failing with a
non-systemic error is dropped and processing continues, so the batch
returns exactly the valid items in their original order with no error. -/
theorem extractItems_entry_scoped_skip (cfg : Config) (feedURL : GoURL)
    (nowYear nowMonth : Int) (now : GoTime) (items : List (Option GofeedItem))
    (h : ∀ it : GofeedItem, some it ∈ items.take (processedCount cfg items.length) →
      errIsDF (validateAndConvertItem cfg feedURL nowYear nowMonth now it) = false) :
    extractItems cfg feedURL nowYear nowMonth now items
      = .ok (acceptedOf cfg feedURL nowYear nowMonth now
          (items.take (processedCount cfg items.length))) :=
  extractLoop_no_dateFormat cfg feedURL nowYear nowMonth now _ h

/-- Closed witness for `extractItems_entry_scoped_skip`: five entries of
which one has an empty headline and one is older than `maxAge`; exactly
the three valid items come back, in order, with no error. -/
theorem extractItems_entry_scoped_skip_witness :
    extractItems
      { maxItems := 1000, maxHeadingLength := 250, maxAge := 86400,
        futureDriftTolerance := 86400 }
      { scheme := "https", opaquePart := "", user := none, host := "example.com",
        path := "/feed", omitHost := false, forceQuery := false, rawQuery := "",
        fragment := "" }
      2025 3 { unix := 1742700000, loc := .utc }
      [some { title := "First item", link := "https://example.com/a",
              description := "d1", content := "",
              published := "", publishedParsed := some { unix := 1742690000, loc := .utc } },
       some { title := "", link := "https://example.com/b",
              description := "d2", content := "",
              published := "", publishedParsed := some { unix := 1742690000, loc := .utc } },
       some { title := "  Third   item ", link := "/c",
              description := "d3", content := "",
              published := "", publishedParsed := some { unix := 1742650000, loc := .utc } },
       some { title := "Fourth item", link := "https://example.com/d",
              description := "d4", content := "",
              published := "", publishedParsed := some { unix := 1742609999, loc := .utc } },
       some { title := "Fifth item", link := "e",
              description := "d5", content := "",
              published := "", publishedParsed := some { unix := 1742699999, loc := .utc } }]
      = .ok
      [{ feedURL := "https://example.com/feed", url := "https://example.com/a",
         headline := "First item", content := "d1",
         publishedAt := { unix := 1742690000, loc := .utc } },
       { feedURL := "https://example.com/feed", url := "https://example.com/c",
         headline := "Third item", content := "d3",
         publishedAt := { unix := 1742650000, loc := .utc } },
       { feedURL := "https://example.com/feed", url := "https://example.com/e",
         headline := "Fifth item", content := "d5",
         publishedAt := { unix := 1742699999, loc := .utc } }] := by
  have h := extractItems_entry_scoped_skip
    { maxItems := 1000, maxHeadingLength := 250, maxAge := 86400,
      futureDriftTolerance := 86400 }
    { scheme := "https", opaquePart := "", user := none, host := "example.com",
      path := "/feed", omitHost := false, forceQuery := false, rawQuery := "",
      fragment := "" }
    2025 3 { unix := 1742700000, loc := .utc }
    [some { title := "First item", link := "https://example.com/a",
            description := "d1", content := "",
            published := "", publishedParsed := some { unix := 1742690000, loc := .utc } },
     some { title := "", link := "https://example.com/b",
            description := "d2", content := "",
            published := "", publishedParsed := some { unix := 1742690000, loc := .utc } },
     some { title := "  Third   item ", link := "/c",
            description := "d3", content := "",
            published := "", publishedParsed := some { unix := 1742650000, loc := .utc } },
     some { title := "Fourth item", link := "https://example.com/d",
            description := "d4", content := "",
            published := "", publishedParsed := some { unix := 1742609999, loc := .utc } },
     some { title := "Fifth item", link := "e",
            description := "d5", content := "",
            published := "", publishedParsed := some { unix := 1742699999, loc := .utc } }]
    (by intro it hit
        simp only [List.take, List.mem_cons, List.not_mem_nil, or_false] at hit
        rcases hit with h | h | h | h | h <;>
          (have he := Option.some.inj h; subst he; decide))
  rw [h]
  rfl

/-- C3 counterexample: the scheme-less feed URL `//example.com/feed` is
accepted by the orchestrator (it parses and has a non-empty host for the
rate limiter), yet the link `/article` resolves to `//example.com/article`,
which is not an absolute URL. -/
theorem resolvedURL_not_always_absolute :
    feedURLAccepted "//example.com/feed" = true
    ∧ (goURLParse "//example.com/feed").map (fun base =>
        (goURLParse "/article").map fun ref =>
          ((base.resolveReference ref).isAbs,
            ValidateAndResolveURL base "/article"))
      = some (some (false, .ok "//example.com/article")) :=
  ⟨rfl, rfl⟩

/-- C3 amended: whenever the feed's base URL is absolute (its scheme is
non-empty), every link accepted by URL validation — relative links
included — resolves to an absolute URL, and the stored string is the
rendering of that absolute URL. -/
theorem resolved_absolute_of_absolute_base (base : GoURL) (raw : String)
    (parsed : GoURL) (hb : base.scheme ≠ "")
    (hne : goTrimSpace raw ≠ "")
    (hp : goURLParse (goTrimSpace raw) = some parsed) :
    (base.resolveReference parsed).isAbs = true
    ∧ ValidateAndResolveURL base raw = .ok (base.resolveReference parsed).toString := by
  constructor
  · simp only [GoURL.resolveReference, GoURL.isAbs]
    by_cases h1 : parsed.scheme = "" <;>
      split_ifs <;> simp_all [decide_eq_true_eq]
  · simp only [ValidateAndResolveURL, if_neg hne, hp]

/-- Closed witness for `resolved_absolute_of_absolute_base`. -/
theorem resolved_absolute_of_absolute_base_witness :
    (GoURL.resolveReference
        { scheme := "https", opaquePart := "", user := none, host := "example.com",
          path := "/feed", omitHost := false, forceQuery := false, rawQuery := "",
          fragment := "" }
        { scheme := "", opaquePart := "", user := none, host := "",
          path := "/article", omitHost := false, forceQuery := false, rawQuery := "",
          fragment := "" }).isAbs = true
    ∧ ValidateAndResolveURL
        { scheme := "https", opaquePart := "", user := none, host := "example.com",
          path := "/feed", omitHost := false, forceQuery := false, rawQuery := "",
          fragment := "" } "/article"
      = .ok "https://example.com/article" := by
  have h := resolved_absolute_of_absolute_base
    { scheme := "https", opaquePart := "", user := none, host := "example.com",
      path := "/feed", omitHost := false, forceQuery := false, rawQuery := "",
      fragment := "" } "/article"
    { scheme := "", opaquePart := "", user := none, host := "",
      path := "/article", omitHost := false, forceQuery := false, rawQuery := "",
      fragment := "" }
    (by decide) (by decide) rfl
  exact ⟨h.1, by rw [h.2]; rfl⟩

/-- C4 counterexample: substring detection does not imply a regex match —
on the input `"EETE_R"` itself, the malformed-token branch is taken and
fails, so the branch is not failure-free once the substring is detected. -/
theorem eete_branch_failure :
    (goContains "EETE_R" "EETE_R" || goContains "EETE_R" "EESTE_R") = true
    ∧ ParseDate 2025 3 "EETE_R" = .error "invalid EETE_R format: EETE_R" :=
  ⟨rfl, rfl⟩

/-- C4 amended: when either region token occurs as a substring, `ParseDate`
delegates to the malformed-token branch and never consults the layout
table; the branch fails exactly on a regex mismatch, and whenever the
anchored pattern matches in full it succeeds. -/
theorem eete_branch_taken (nowYear nowMonth : Int) (s : String)
    (h : (goContains s "EETE_R" || goContains s "EESTE_R") = true) :
    ParseDate nowYear nowMonth s = parseEETEPattern nowYear nowMonth s
    ∧ ∀ g, eeteMatch s = some g →
        ∃ t, ParseDate nowYear nowMonth s = .ok t := by
  have hb : ParseDate nowYear nowMonth s = parseEETEPattern nowYear nowMonth s := by
    simp only [ParseDate, h, if_true]
  refine ⟨hb, fun g hg => ?_⟩
  rw [hb]
  rcases g with ⟨w, ap, pt, mo⟩
  simp only [parseEETEPattern, hg]
  exact ⟨_, rfl⟩

/-- Closed witness for `eete_branch_taken`. -/
theorem eete_branch_taken_witness :
    ParseDate 2025 3 "TueAMEETE_RMarchC822"
      = parseEETEPattern 2025 3 "TueAMEETE_RMarchC822"
    ∧ ∃ t, ParseDate 2025 3 "TueAMEETE_RMarchC822" = .ok t := by
  have h := eete_branch_taken 2025 3 "TueAMEETE_RMarchC822" rfl
  exact ⟨h.1, h.2 ("Tue", "AM", "EETE_R", "March") rfl⟩

/-- A UTC `goDate` with an in-range month needs no month normalization. -/
theorem goDate_utc_unix (y m d h mi s : Int) (hm1 : 1 ≤ m) (hm2 : m ≤ 12) :
    (goDate y m d h mi s .utc).unix
      = daysFromCivil y m d * 86400 + h * 3600 + mi * 60 + s := by
  simp only [goDate, Loc.offsetSec]
  have h1 : (m - 1) / 12 = 0 := by omega
  have h2 : (m - 1) % 12 + 1 = m := by omega
  rw [h1, h2]
  ring_nf

/-- Field readback of a UTC `goDate` with valid month, day at most 7 and
an in-range clock. -/
theorem goDate_utc_fields (y m d h mi s : Int) (hm1 : 1 ≤ m) (hm2 : m ≤ 12)
    (hd1 : 1 ≤ d) (hd2 : d ≤ 7) (hh1 : 0 ≤ h) (hh2 : h < 24)
    (hmi1 : 0 ≤ mi) (hmi2 : mi < 60) (hs1 : 0 ≤ s) (hs2 : s < 60) :
    (goDate y m d h mi s .utc).year = y
    ∧ (goDate y m d h mi s .utc).month = m
    ∧ (goDate y m d h mi s .utc).day = d
    ∧ (goDate y m d h mi s .utc).hour = h
    ∧ (goDate y m d h mi s .utc).minute = mi
    ∧ (goDate y m d h mi s .utc).second = s
    ∧ (goDate y m d h mi s .utc).weekday = weekdayOf y m d
    ∧ (goDate y m d h mi s .utc).loc = .utc := by
  have hu := goDate_utc_unix y m d h mi s hm1 hm2
  have hloc : (goDate y m d h mi s .utc).loc = .utc := rfl
  have hdiv : (daysFromCivil y m d * 86400 + h * 3600 + mi * 60 + s + 0) / 86400
      = daysFromCivil y m d := by omega
  have hmod : (daysFromCivil y m d * 86400 + h * 3600 + mi * 60 + s + 0) % 86400
      = h * 3600 + mi * 60 + s := by omega
  have hfld : (goDate y m d h mi s .utc).dateFields = (y, m, d) := by
    unfold GoTime.dateFields
    rw [hu, hloc]
    simp only [Loc.offsetSec]
    rw [hdiv]
    exact civilFromDays_daysFromCivil y m d hm1 hm2 hd1 hd2
  have hsod : (goDate y m d h mi s .utc).secondsOfDay = h * 3600 + mi * 60 + s := by
    unfold GoTime.secondsOfDay
    rw [hu, hloc]
    simp only [Loc.offsetSec]
    rw [hmod]
  refine ⟨?_, ?_, ?_, ?_, ?_, ?_, ?_, hloc⟩
  · unfold GoTime.year; rw [hfld]
  · unfold GoTime.month; rw [hfld]
  · unfold GoTime.day; rw [hfld]
  · unfold GoTime.hour; rw [hsod]; omega
  · unfold GoTime.minute; rw [hsod]; omega
  · unfold GoTime.second; rw [hsod]; omega
  · unfold GoTime.weekday weekdayOf
    rw [hu, hloc]
    simp only [Loc.offsetSec]
    rw [hdiv]

/-- The epoch day number is linear in the day of the month. -/
theorem daysFromCivil_day (y m d : Int) :
    daysFromCivil y m d = daysFromCivil y m 1 + (d - 1) := by
  unfold daysFromCivil dayOfMarchYear
  ring_nf

/-- A successful association lookup returns a stored value. -/
theorem lookupAssoc_mem (tab : List (String × Int)) (k : String) (v : Int)
    (h : lookupAssoc tab k = some v) : ∃ n, (n, v) ∈ tab := by
  induction tab with
  | nil => simp [lookupAssoc] at h
  | cons p rest ih =>
    rcases p with ⟨n0, v0⟩
    simp only [lookupAssoc] at h
    split_ifs at h with he
    · cases h; exact ⟨n0, List.mem_cons_self _ _⟩
    · rcases ih h with ⟨n, hn⟩; exact ⟨n, List.mem_cons_of_mem _ hn⟩

/-- Month numbers stored in `monthMap` lie in 1..12. -/
theorem monthMap_bounds (k : String) (v : Int)
    (h : lookupAssoc monthMap k = some v) : 1 ≤ v ∧ v ≤ 12 := by
  rcases lookupAssoc_mem _ _ _ h with ⟨n, hn⟩
  have hall : ∀ p ∈ monthMap, 1 ≤ p.2 ∧ p.2 ≤ 12 := by decide
  exact hall _ hn

/-- Weekday numbers stored in `weekdayMap` lie in 0..6. -/
theorem weekdayMap_bounds (k : String) (v : Int)
    (h : lookupAssoc weekdayMap k = some v) : 0 ≤ v ∧ v ≤ 6 := by
  rcases lookupAssoc_mem _ _ _ h with ⟨n, hn⟩
  have hall : ∀ p ∈ weekdayMap, 0 ≤ p.2 ∧ p.2 ≤ 6 := by decide
  exact hall _ hn

/-- Core of the malformed-token computation: starting from the first of
the month, advancing by `(wd - weekday + 7) % 7` days and stamping the
heuristic clock lands on the first day of that month with weekday `wd`,
in UTC. -/
theorem parseEETE_core (nowYear M wd hour minute : Int)
    (hM1 : 1 ≤ M) (hM2 : M ≤ 12) (hwd1 : 0 ≤ wd) (hwd2 : wd ≤ 6)
    (hh1 : 0 ≤ hour) (hh2 : hour < 24) (hmi1 : 0 ≤ minute) (hmi2 : minute < 60) :
    ∃ t, goDate
        ((goDate nowYear M 1 0 0 0 .utc).addDate 0 0
          ((wd - (goDate nowYear M 1 0 0 0 .utc).weekday + 7) % 7)).year
        ((goDate nowYear M 1 0 0 0 .utc).addDate 0 0
          ((wd - (goDate nowYear M 1 0 0 0 .utc).weekday + 7) % 7)).month
        ((goDate nowYear M 1 0 0 0 .utc).addDate 0 0
          ((wd - (goDate nowYear M 1 0 0 0 .utc).weekday + 7) % 7)).day
        hour minute 0 .utc = t
      ∧ t.loc = .utc ∧ t.year = nowYear ∧ t.month = M
      ∧ 1 ≤ t.day ∧ t.day ≤ 7
      ∧ weekdayOf nowYear M t.day = wd
      ∧ (∀ d, 1 ≤ d → d < t.day → weekdayOf nowYear M d ≠ wd)
      ∧ t.hour = hour ∧ t.minute = minute ∧ t.second = 0 := by
  obtain ⟨hAy, hAmo, hAd, hAh, hAmi, hAs, hAw, hAl⟩ :=
    goDate_utc_fields nowYear M 1 0 0 0 hM1 hM2 (by norm_num) (by norm_num)
      (by norm_num) (by norm_num) (by norm_num) (by norm_num) (by norm_num)
      (by norm_num)
  set K := (wd - (goDate nowYear M 1 0 0 0 .utc).weekday + 7) % 7 with hKdef
  have hK1 : 0 ≤ K := by rw [hKdef]; omega
  have hK2 : K ≤ 6 := by rw [hKdef]; omega
  have hT2 : (goDate nowYear M 1 0 0 0 .utc).addDate 0 0 K
      = goDate nowYear M (1 + K) 0 0 0 .utc := by
    unfold GoTime.addDate
    rw [hAy, hAmo, hAd, hAh, hAmi, hAs, hAl]
    simp only [add_zero]
  obtain ⟨h2y, h2mo, h2d, _, _, _, _, _⟩ :=
    goDate_utc_fields nowYear M (1 + K) 0 0 0 hM1 hM2 (by omega) (by omega)
      (by norm_num) (by norm_num) (by norm_num) (by norm_num) (by norm_num)
      (by norm_num)
  obtain ⟨hEy, hEmo, hEd, hEh, hEmi, hEs, _, hEl⟩ :=
    goDate_utc_fields nowYear M (1 + K) hour minute 0 hM1 hM2 (by omega)
      (by omega) hh1 hh2 hmi1 hmi2 (by norm_num) (by norm_num)
  have hKeq : K = (wd - weekdayOf nowYear M 1 + 7) % 7 := by
    rw [hKdef, hAw]
  refine ⟨goDate nowYear M (1 + K) hour minute 0 .utc, ?_, hEl, hEy, hEmo, ?_, ?_,
    ?_, ?_, hEh, hEmi, hEs⟩
  · rw [hT2, h2y, h2mo, h2d]
  · rw [hEd]; omega
  · rw [hEd]; omega
  · rw [hEd]
    unfold weekdayOf at hKeq ⊢
    rw [daysFromCivil_day nowYear M (1 + K)]
    omega
  · intro d hd1 hd2 hcon
    rw [hEd] at hd2
    unfold weekdayOf at hKeq hcon
    rw [daysFromCivil_day nowYear M d] at hcon
    omega

/-- C6: a string matching the malformed-token pattern yields a UTC instant
whose year is the current year, whose month resolves the month name
case-insensitively (falling back to the current month on an unknown name),
whose day is the first day of that month with the parsed weekday, with
09:00 for AM and 15:00 for PM, minute 0 for `EETE_R` and 30 for
`EESTE_R`, and zero seconds. -/
theorem parseEETE_matched (nowYear nowMonth : Int) (s w ap pt mo : String)
    (wd : Int)
    (hm : eeteMatch s = some (w, ap, pt, mo))
    (hwd : lookupAssoc weekdayMap (asciiLower w) = some wd)
    (hnm1 : 1 ≤ nowMonth) (hnm2 : nowMonth ≤ 12) :
    ∃ t, parseEETEPattern nowYear nowMonth s = .ok t
      ∧ t.loc = .utc
      ∧ t.year = nowYear
      ∧ t.month = (lookupAssoc monthMap (asciiLower mo)).getD nowMonth
      ∧ 1 ≤ t.day ∧ t.day ≤ 7
      ∧ weekdayOf nowYear t.month t.day = wd
      ∧ (∀ d, 1 ≤ d → d < t.day → weekdayOf nowYear t.month d ≠ wd)
      ∧ (ap = "AM" → t.hour = 9) ∧ (ap = "PM" → t.hour = 15)
      ∧ (pt = "EETE_R" → t.minute = 0) ∧ (pt = "EESTE_R" → t.minute = 30)
      ∧ t.second = 0 := by
  have hMb : 1 ≤ (lookupAssoc monthMap (asciiLower mo)).getD nowMonth
      ∧ (lookupAssoc monthMap (asciiLower mo)).getD nowMonth ≤ 12 := by
    rcases hv : lookupAssoc monthMap (asciiLower mo) with _ | v
    · simpa using ⟨hnm1, hnm2⟩
    · simpa using monthMap_bounds _ _ hv
  have hwdb := weekdayMap_bounds _ _ hwd
  have hpw : parseWeekday w = wd := by
    unfold parseWeekday
    rw [hwd]
    rfl
  obtain ⟨t, heq, hl, hy, hmo2, hd1, hd2, hwk, hminimal, hh, hmi, hs0⟩ :=
    parseEETE_core nowYear ((lookupAssoc monthMap (asciiLower mo)).getD nowMonth)
      wd (if ap = "PM" then 15 else 9) (if pt = "EESTE_R" then 30 else 0)
      hMb.1 hMb.2 hwdb.1 hwdb.2
      (by split_ifs <;> norm_num) (by split_ifs <;> norm_num)
      (by split_ifs <;> norm_num) (by split_ifs <;> norm_num)
  refine ⟨t, ?_, hl, hy, hmo2, hd1, hd2, ?_, ?_, ?_, ?_, ?_, ?_, hs0⟩
  · simp only [parseEETEPattern, hm, hpw, if_pos hwdb.1]
    rw [heq]
  · rw [hmo2]; exact hwk
  · rw [hmo2]; exact hminimal
  · intro hap; rw [hh, hap]; rfl
  · intro hap; rw [hh, hap]; rfl
  · intro hpt; rw [hmi, hpt]; rfl
  · intro hpt; rw [hmi, hpt]; rfl

/-- Closed witness for `parseEETE_matched`. -/
theorem parseEETE_matched_witness :
    ∃ t, parseEETEPattern 2025 3 "TueAMEETE_RMarchC822" = .ok t
      ∧ t.loc = .utc ∧ t.year = 2025 ∧ t.month = 3 ∧ 1 ≤ t.day ∧ t.day ≤ 7
      ∧ weekdayOf 2025 t.month t.day = 2 := by
  obtain ⟨t, h1, h2, h3, h4, h5, h6, h7, _⟩ :=
    parseEETE_matched 2025 3 "TueAMEETE_RMarchC822" "Tue" "AM" "EETE_R" "March"
      2 rfl rfl (by decide) (by decide)
  exact ⟨t, h1, h2, h3, by rw [h4]; rfl, h5, h6, h7⟩

/-- When a successful parse recorded no zone information at all, the end
of `Parse` lands in the default location, UTC, building the instant from
the parsed wall-clock fields. -/
theorem finalize_no_zone (st : PState) (t : GoTime) (h : finalize st = some t)
    (hz : st.z = none) (hzo : st.zoneOffset = none) (hzn : st.zoneName = none) :
    t.loc = .utc ∧ ∃ y mo d h2 mi s2, t = goDate y mo d h2 mi s2 .utc := by
  simp only [finalize, hz, hzo, hzn] at h
  repeat' split at h
  all_goals
    first
      | exact Option.noConfusion h
      | (have ht := Option.some.inj h
         subst ht
         exact ⟨rfl, _, _, _, _, _, _, rfl⟩)

/-- The winning layout attempt of `tryLayouts` went through `finalize`. -/
theorem tryLayouts_finalize (ls : List String) (v : List Char) (st : PState)
    (t : GoTime) (h : tryLayouts ls v = some (st, t)) : finalize st = some t := by
  induction ls with
  | nil => simp [tryLayouts] at h
  | cons l rest ih =>
    simp only [tryLayouts] at h
    rcases hp : parseWithLayout l v with _ | r
    · rw [hp] at h; exact ih h
    · rw [hp] at h
      cases h
      simp only [parseWithLayout] at hp
      rcases hr : runChunks (chunksOf l.data) v PState.init with _ | st0
      · simp [hr] at hp
      · simp only [hr] at hp
        rcases Option.map_eq_some'.1 hp with ⟨a, hfa, hfeq⟩
        injection hfeq with h1 h2
        subst h1
        subst h2
        exact hfa

/-- C2 counterexample: the layout-table-backed sample string
`"Friday 05 Jul 2024 08:00:00 -0600"` (from the repository's own test
data) parses via the table, and the returned instant keeps its fixed
`-06:00` zone — its UTC offset is not zero. -/
theorem normalized_offset_not_always_zero :
    ∃ t, ParseDateWithDefaultTZ 2025 3 "Friday 05 Jul 2024 08:00:00 -0600"
        = .ok t
      ∧ ¬t.loc.offsetSec = 0 :=
  ⟨{ unix := 1720188000, loc := .fixed "" (-21600) }, rfl, by decide⟩

/-- C2 amended: for every string the layout table parses with no zone
information recorded (no explicit location, no numeric offset, no zone
abbreviation), the result is the parsed wall-clock fields reinterpreted as
a UTC instant — its UTC offset is exactly zero — and
`ParseDateWithDefaultTZ` returns it unchanged.  (A string parsed with an
explicit offset instead keeps that offset, which the counterexample shows
can be non-zero.) -/
theorem layout_parse_no_zone_utc (nowYear nowMonth : Int) (s : String)
    (st : PState) (t : GoTime)
    (hne : (goContains s "EETE_R" || goContains s "EESTE_R") = false)
    (hp : tryLayouts dateLayouts (datePreprocess s).data = some (st, t))
    (hz : st.z = none) (hzo : st.zoneOffset = none) (hzn : st.zoneName = none) :
    t.loc = .utc ∧ t.loc.offsetSec = 0
    ∧ ParseDateWithDefaultTZ nowYear nowMonth s = .ok t
    ∧ ∃ y mo d h mi sec, t = goDate y mo d h mi sec .utc := by
  have hf := tryLayouts_finalize _ _ _ _ hp
  obtain ⟨hloc, hex⟩ := finalize_no_zone st t hf hz hzo hzn
  have hpd : ParseDate nowYear nowMonth s = .ok t := by
    simp only [ParseDate, hne, Bool.false_eq_true, if_false, hp]
  refine ⟨hloc, by rw [hloc]; rfl, ?_, hex⟩
  simp only [ParseDateWithDefaultTZ, hpd]
  rw [if_neg (by rw [hloc]; decide)]

/-- Closed witness for `layout_parse_no_zone_utc` on the sample string
`"23-03-2025 11:15"`, whose matching layout `"02-01-2006 15:04"` carries
no zone token. -/
theorem layout_parse_no_zone_utc_witness :
    ParseDateWithDefaultTZ 2025 3 "23-03-2025 11:15"
      = .ok { unix := 1742728500, loc := .utc }
    ∧ Loc.offsetSec .utc = 0 := by
  have h := layout_parse_no_zone_utc 2025 3 "23-03-2025 11:15"
    { year := 2025, month := 3, day := 23, yday := -1, hour := 11, min := 15,
      sec := 0, pmSet := false, amSet := false, z := none, zoneOffset := none,
      zoneName := none }
    { unix := 1742728500, loc := .utc }
    rfl rfl rfl rfl rfl
  exact ⟨h.2.2.1, rfl⟩

end Feedfetcher
